import Mathlib

/-!
Verification development for the multi-store sales aggregation pipeline of
the sc-order repository (backend/shopify_api.py, backend/app.py,
backend/database.py).

The Python code is shallowly embedded: dictionaries become association
lists built with the same insert-or-add discipline the code uses, the
cursor-paginated GraphQL loop becomes a fuel-indexed recursion over an
abstract server (a function from requests to responses), and the SSE
generator becomes a pure function producing the list of emitted events.
All quantities are natural numbers (Shopify line-item quantities and case
sizes are non-negative integers).
-/

/-! ## Sales maps

Python dictionaries used as `{sku: quantity}` accumulators.  The code only
ever touches them through `d[k] = d.get(k, 0) + q` and `d.get(k, 0)`;
`madd` and `mget` embed exactly those two operations (insertion order
preserved, new keys appended at the end, as in a Python dict). -/

abbrev SalesMap := List (String × Nat)

def mget : SalesMap → String → Nat
  | [], _ => 0
  | (k, v) :: rest, s => if k = s then v else mget rest s

def madd : SalesMap → String → Nat → SalesMap
  | [], k, q => [(k, q)]
  | (k', v) :: rest, k, q =>
    if k' = k then (k', v + q) :: rest else (k', v) :: madd rest k q

/-- Sum of the values carried by entries whose key is `s` (used to reason
about iteration over `.items()` of a dictionary that may, in principle,
hold duplicate keys as an association list). -/
def entrySum (m : SalesMap) (s : String) : Nat :=
  (m.map (fun p => if p.1 = s then p.2 else 0)).sum

def mkeys (m : SalesMap) : List String := m.map Prod.fst

theorem mget_madd (m : SalesMap) (k s : String) (q : Nat) :
    mget (madd m k q) s = mget m s + (if k = s then q else 0) := by
  induction m with
  | nil => simp only [madd, mget]; split <;> simp
  | cons hd tl ih =>
    obtain ⟨k', v⟩ := hd
    by_cases hk : k' = k
    · subst hk
      by_cases hs : k' = s
      · subst hs; simp [madd, mget]
      · simp [madd, mget, hs]
    · by_cases hs : k' = s
      · subst hs
        have hks : ¬ k = k' := fun h => hk h.symm
        simp [madd, mget, hk, hks]
      · simp [madd, mget, hk, hs, ih]

theorem mget_eq_zero_of_not_mem (m : SalesMap) (s : String)
    (h : s ∉ mkeys m) : mget m s = 0 := by
  induction m with
  | nil => rfl
  | cons hd tl ih =>
    obtain ⟨k, v⟩ := hd
    simp only [mkeys, List.map_cons, List.mem_cons] at h
    push_neg at h
    simp only [mget]
    rw [if_neg (fun hh => h.1 hh.symm)]
    exact ih h.2

theorem entrySum_eq_zero_of_not_mem (m : SalesMap) (s : String)
    (h : s ∉ mkeys m) : entrySum m s = 0 := by
  induction m with
  | nil => rfl
  | cons hd tl ih =>
    obtain ⟨k, v⟩ := hd
    simp only [mkeys, List.map_cons, List.mem_cons] at h
    push_neg at h
    have hks : ¬ k = s := fun hh => h.1 hh.symm
    have htl := ih h.2
    simp only [entrySum, List.map_cons, List.sum_cons, if_neg hks] at *
    omega

theorem entrySum_eq_mget (m : SalesMap) (s : String)
    (h : (mkeys m).Nodup) : entrySum m s = mget m s := by
  induction m with
  | nil => rfl
  | cons hd tl ih =>
    obtain ⟨k, v⟩ := hd
    simp only [mkeys, List.map_cons, List.nodup_cons] at h
    have htl : entrySum tl s = mget tl s := ih h.2
    by_cases hs : k = s
    · subst hs
      have h0 : entrySum tl k = 0 := entrySum_eq_zero_of_not_mem tl k h.1
      simp only [entrySum, List.map_cons, List.sum_cons, mget,
        eq_self_iff_true, if_true] at *
      omega
    · simp only [entrySum, List.map_cons, List.sum_cons, mget, if_neg hs] at *
      omega

theorem mkeys_madd (m : SalesMap) (k : String) (q : Nat) :
    mkeys (madd m k q) = if k ∈ mkeys m then mkeys m else mkeys m ++ [k] := by
  induction m with
  | nil => simp [madd, mkeys]
  | cons hd tl ih =>
    obtain ⟨k', v⟩ := hd
    by_cases hk : k' = k
    · subst hk; simp [madd, mkeys]
    · have hk2 : ¬ k = k' := fun h => hk h.symm
      simp only [madd, if_neg hk, mkeys, List.map_cons, List.mem_cons]
      simp only [mkeys] at ih
      rw [ih]
      by_cases hmem : k ∈ tl.map Prod.fst
      · simp [hmem, hk2]
      · simp [hmem, hk2]

theorem nodup_mkeys_madd (m : SalesMap) (k : String) (q : Nat)
    (h : (mkeys m).Nodup) : (mkeys (madd m k q)).Nodup := by
  rw [mkeys_madd]
  by_cases hmem : k ∈ mkeys m
  · simpa [hmem] using h
  · simp only [hmem, if_false]
    simpa [List.nodup_append] using ⟨h, hmem⟩

/-! ## Pages, orders, line items

The shapes delivered by the GraphQL endpoint, restricted to the fields
`get_sales_by_skus_and_tag` reads: each order edge carries line-item
edges with `sku` (nullable string) and `quantity`; each page carries
`pageInfo.hasNextPage` and `pageInfo.endCursor`. -/

structure LineItem where
  sku : Option String
  quantity : Nat
deriving DecidableEq

structure Order where
  lineItems : List LineItem
deriving DecidableEq

structure PageInfo where
  hasNextPage : Bool
  endCursor : Option String
deriving DecidableEq

structure Page where
  orders : List Order
  pageInfo : PageInfo
deriving DecidableEq

/-- Python truthiness for an optional string: `None` and `""` are falsy.
Returns the string itself when truthy (`if sku:` / `if url and token:` /
`if cursor:`). -/
def truthyStr : Option String → Option String
  | some s => if s = "" then none else some s
  | none => none

/-- One line item of one order: `if sku: sales_by_sku[sku] += quantity`. -/
def addLineItem (m : SalesMap) (li : LineItem) : SalesMap :=
  match li.sku with
  | some s => if s = "" then m else madd m s li.quantity
  | none => m

def processOrder (m : SalesMap) (o : Order) : SalesMap :=
  o.lineItems.foldl addLineItem m

def processPage (m : SalesMap) (p : Page) : SalesMap :=
  p.orders.foldl processOrder m

/-- Specification-side count: total quantity of line items bearing
exactly the sku `s` in one order / one page. -/
def liCount (s : String) (li : LineItem) : Nat :=
  if li.sku = some s then li.quantity else 0

def orderCount (s : String) (o : Order) : Nat :=
  (o.lineItems.map (liCount s)).sum

def pageCount (s : String) (p : Page) : Nat :=
  (p.orders.map (orderCount s)).sum

theorem mget_addLineItem (m : SalesMap) (li : LineItem) (s : String)
    (hs : s ≠ "") : mget (addLineItem m li) s = mget m s + liCount s li := by
  cases h : li.sku with
  | none => simp [addLineItem, h, liCount]
  | some t =>
    by_cases ht : t = ""
    · subst ht
      simp [addLineItem, h, liCount, Ne.symm hs]
    · simp only [addLineItem, h, if_neg ht]
      rw [mget_madd]
      by_cases hts : t = s
      · subst hts; simp [liCount, h]
      · simp [liCount, h, hts]

theorem mget_processOrder (m : SalesMap) (o : Order) (s : String)
    (hs : s ≠ "") : mget (processOrder m o) s = mget m s + orderCount s o := by
  unfold processOrder orderCount
  induction o.lineItems generalizing m with
  | nil => simp
  | cons hd tl ih =>
    simp only [List.foldl_cons, List.map_cons, List.sum_cons]
    rw [ih, mget_addLineItem m hd s hs]
    omega

theorem mget_processPage (m : SalesMap) (p : Page) (s : String)
    (hs : s ≠ "") : mget (processPage m p) s = mget m s + pageCount s p := by
  unfold processPage pageCount
  induction p.orders generalizing m with
  | nil => simp
  | cons hd tl ih =>
    simp only [List.foldl_cons, List.map_cons, List.sum_cons]
    rw [ih, mget_processOrder m hd s hs]
    omega

/-! ## The paginated query client

`ShopifyAPI.get_sales_by_skus_and_tag` (shopify_api.py).  The remote
endpoint is abstracted as a function from requests to responses; a
response is either a page (`_execute_query` returned data) or an error
(`_execute_query` raised: transport error, non-200 status, or a GraphQL
`errors` payload).  The `while has_next_page` loop becomes a fuel-indexed
recursion; `completed = false` marks fuel exhaustion, i.e. an execution
prefix of a loop that has not yet exited. On an error the source prints,
`break`s, and the partial `sales_by_sku` is returned as the ordinary
result. -/

structure PageRequest where
  query : String
  pageSize : Nat
  cursor : Option String
deriving DecidableEq

inductive PageResponse where
  | ok (page : Page)
  | err (msg : String)
deriving DecidableEq

structure Step where
  req : PageRequest
  resp : PageResponse
deriving DecidableEq

structure LoopOut where
  sales : SalesMap
  steps : List Step
  completed : Bool
deriving DecidableEq

def runLoop (server : PageRequest → PageResponse) (queryString : String)
    (pageSize : Nat) : Nat → Option String → SalesMap → LoopOut
  | 0, _, acc => ⟨acc, [], false⟩
  | fuel + 1, cursor, acc =>
    let req : PageRequest := ⟨queryString, pageSize, truthyStr cursor⟩
    match server req with
    | .err e => ⟨acc, [⟨req, .err e⟩], true⟩
    | .ok page =>
      let acc2 := processPage acc page
      if page.pageInfo.hasNextPage then
        let out := runLoop server queryString pageSize fuel page.pageInfo.endCursor acc2
        ⟨out.sales, ⟨req, .ok page⟩ :: out.steps, out.completed⟩
      else
        ⟨acc2, [⟨req, .ok page⟩], true⟩

/-- The filter expression built by `get_sales_by_skus_and_tag`.  Dates are
carried as their already-formatted timestamp strings; `nowMinus d` stands
for `(datetime.now() - timedelta(days=d)).strftime(...)`. -/
def buildQueryString (skus : List String) (tag : String)
    (fromS toS : Option String) (days : Option Nat)
    (nowMinus : Nat → String) : String :=
  let dateQuery : String :=
    match fromS, toS with
    | some f, some t => s!"created_at:>={f} AND created_at:<={t}"
    | _, _ =>
      let d : Nat :=
        match days with
        | some d => if d = 0 then 30 else d
        | none => 30
      let ts := nowMinus d
      s!"created_at:>={ts}"
  let skuQuery := String.intercalate " OR " (skus.map (fun s => s!"sku:{s}"))
  s!"{dateQuery} AND tag:{tag} AND ({skuQuery})"

def get_sales_by_skus_and_tag (server : PageRequest → PageResponse)
    (skus : List String) (order_tag : String) (fromS toS : Option String)
    (days : Option Nat) (nowMinus : Nat → String)
    (pageSize fuel : Nat) : LoopOut :=
  if skus = [] ∨ order_tag = "" then ⟨[], [], true⟩
  else runLoop server (buildQueryString skus order_tag fromS toS days nowMinus)
    pageSize fuel none []

/-- Pages successfully consumed during a run, in consumption order. -/
def okPages (steps : List Step) : List Page :=
  steps.filterMap (fun st =>
    match st.resp with
    | .ok p => some p
    | .err _ => none)


def hnpList (steps : List Step) : List Bool :=
  (okPages steps).map (fun p => p.pageInfo.hasNextPage)

/-- Unfolding: the loop body when the request raises. -/
theorem runLoop_succ_err (server : PageRequest → PageResponse)
    (q : String) (ps n : Nat) (cursor : Option String) (acc : SalesMap)
    (e : String) (h : server ⟨q, ps, truthyStr cursor⟩ = .err e) :
    runLoop server q ps (n + 1) cursor acc =
      ⟨acc, [⟨⟨q, ps, truthyStr cursor⟩, .err e⟩], true⟩ := by
  simp [runLoop, h]

/-- Unfolding: the loop body when a page arrives and reports a next page. -/
theorem runLoop_succ_next (server : PageRequest → PageResponse)
    (q : String) (ps n : Nat) (cursor : Option String) (acc : SalesMap)
    (page : Page) (h : server ⟨q, ps, truthyStr cursor⟩ = .ok page)
    (hnp : page.pageInfo.hasNextPage = true) :
    runLoop server q ps (n + 1) cursor acc =
      ⟨(runLoop server q ps n page.pageInfo.endCursor (processPage acc page)).sales,
        ⟨⟨q, ps, truthyStr cursor⟩, .ok page⟩ ::
          (runLoop server q ps n page.pageInfo.endCursor (processPage acc page)).steps,
        (runLoop server q ps n page.pageInfo.endCursor (processPage acc page)).completed⟩ := by
  simp [runLoop, h, hnp]

/-- Unfolding: the loop body when a page arrives and reports no next page. -/
theorem runLoop_succ_last (server : PageRequest → PageResponse)
    (q : String) (ps n : Nat) (cursor : Option String) (acc : SalesMap)
    (page : Page) (h : server ⟨q, ps, truthyStr cursor⟩ = .ok page)
    (hnp : page.pageInfo.hasNextPage = false) :
    runLoop server q ps (n + 1) cursor acc =
      ⟨processPage acc page, [⟨⟨q, ps, truthyStr cursor⟩, .ok page⟩], true⟩ := by
  simp [runLoop, h, hnp]

/-- Every request issued by the pagination loop carries the fixed query
string and the fixed page size. -/
theorem runLoop_req_fixed (server : PageRequest → PageResponse)
    (q : String) (ps : Nat) :
    ∀ fuel cursor acc stp, stp ∈ (runLoop server q ps fuel cursor acc).steps →
      stp.req.pageSize = ps ∧ stp.req.query = q := by
  intro fuel
  induction fuel with
  | zero => intro cursor acc stp h; simp [runLoop] at h
  | succ n ih =>
    intro cursor acc stp h
    cases hsrv : server ⟨q, ps, truthyStr cursor⟩ with
    | err e =>
      rw [runLoop_succ_err server q ps n cursor acc e hsrv] at h
      simp only [List.mem_singleton] at h
      subst h; exact ⟨rfl, rfl⟩
    | ok page =>
      cases hnp : page.pageInfo.hasNextPage with
      | true =>
        rw [runLoop_succ_next server q ps n cursor acc page hsrv hnp] at h
        rcases List.mem_cons.mp h with h | h
        · subst h; exact ⟨rfl, rfl⟩
        · exact ih _ _ _ h
      | false =>
        rw [runLoop_succ_last server q ps n cursor acc page hsrv hnp] at h
        simp only [List.mem_singleton] at h
        subst h; exact ⟨rfl, rfl⟩

/-- The first request of a loop run uses (the truthy form of) the cursor
the loop was entered with. -/
theorem runLoop_head_req (server : PageRequest → PageResponse)
    (q : String) (ps : Nat) :
    ∀ fuel cursor acc stp rest,
      (runLoop server q ps fuel cursor acc).steps = stp :: rest →
      stp.req = ⟨q, ps, truthyStr cursor⟩ := by
  intro fuel cursor acc stp rest h
  cases fuel with
  | zero => simp [runLoop] at h
  | succ n =>
    cases hsrv : server ⟨q, ps, truthyStr cursor⟩ with
    | err e =>
      rw [runLoop_succ_err server q ps n cursor acc e hsrv] at h
      injection h with h1 _; rw [← h1]
    | ok page =>
      cases hnp : page.pageInfo.hasNextPage with
      | true =>
        rw [runLoop_succ_next server q ps n cursor acc page hsrv hnp] at h
        injection h with h1 _; rw [← h1]
      | false =>
        rw [runLoop_succ_last server q ps n cursor acc page hsrv hnp] at h
        injection h with h1 _; rw [← h1]

/-- The accumulated map of a loop run: for every non-empty sku, the final
count is the entry count the loop was entered with plus the total
quantity of matching line items over all successfully consumed pages. -/
theorem runLoop_sales (server : PageRequest → PageResponse)
    (q : String) (ps : Nat) (s : String) (hs : s ≠ "") :
    ∀ fuel cursor acc,
      mget (runLoop server q ps fuel cursor acc).sales s =
        mget acc s +
          ((okPages (runLoop server q ps fuel cursor acc).steps).map
            (pageCount s)).sum := by
  intro fuel
  induction fuel with
  | zero => intro cursor acc; simp [runLoop, okPages]
  | succ n ih =>
    intro cursor acc
    cases hsrv : server ⟨q, ps, truthyStr cursor⟩ with
    | err e =>
      rw [runLoop_succ_err server q ps n cursor acc e hsrv]
      simp [okPages]
    | ok page =>
      cases hnp : page.pageInfo.hasNextPage with
      | true =>
        rw [runLoop_succ_next server q ps n cursor acc page hsrv hnp]
        simp only [okPages, List.filterMap_cons, List.map_cons, List.sum_cons]
        rw [ih, mget_processPage acc page s hs]
        simp only [okPages]
        omega
      | false =>
        rw [runLoop_succ_last server q ps n cursor acc page hsrv hnp]
        rw [mget_processPage acc page s hs]
        simp [okPages]

/-- Pagination aborts at the first failing request: an error response can
only sit at the last position of the step trace. -/
theorem runLoop_err_last (server : PageRequest → PageResponse)
    (q : String) (ps : Nat) :
    ∀ fuel cursor acc stp,
      stp ∈ (runLoop server q ps fuel cursor acc).steps.dropLast →
      ∃ p, stp.resp = .ok p := by
  intro fuel
  induction fuel with
  | zero => intro cursor acc stp h; simp [runLoop] at h
  | succ n ih =>
    intro cursor acc stp h
    cases hsrv : server ⟨q, ps, truthyStr cursor⟩ with
    | err e =>
      rw [runLoop_succ_err server q ps n cursor acc e hsrv] at h
      simp at h
    | ok page =>
      cases hnp : page.pageInfo.hasNextPage with
      | true =>
        rw [runLoop_succ_next server q ps n cursor acc page hsrv hnp] at h
        cases hout : (runLoop server q ps n page.pageInfo.endCursor
            (processPage acc page)).steps with
        | nil => rw [hout] at h; simp at h
        | cons a l =>
          rw [hout] at h
          rw [List.dropLast_cons_of_ne_nil (by simp)] at h
          rcases List.mem_cons.mp h with h | h
          · subst h; exact ⟨page, rfl⟩
          · exact ih _ _ _ (by rw [hout]; exact h)
      | false =>
        rw [runLoop_succ_last server q ps n cursor acc page hsrv hnp] at h
        simp at h

/-- Each subsequent request carries (the truthy form of) the `endCursor`
reported by the page that preceded it; a request follows a page only if
that page reported `hasNextPage`. -/
theorem runLoop_cursor_chain (server : PageRequest → PageResponse)
    (q : String) (ps : Nat) :
    ∀ fuel cursor acc,
      List.Chain'
        (fun a b => ∃ p, a.resp = .ok p ∧ p.pageInfo.hasNextPage = true ∧
          b.req.cursor = truthyStr p.pageInfo.endCursor)
        (runLoop server q ps fuel cursor acc).steps := by
  intro fuel
  induction fuel with
  | zero => intro cursor acc; simp [runLoop]
  | succ n ih =>
    intro cursor acc
    cases hsrv : server ⟨q, ps, truthyStr cursor⟩ with
    | err e =>
      rw [runLoop_succ_err server q ps n cursor acc e hsrv]
      simp
    | ok page =>
      cases hnp : page.pageInfo.hasNextPage with
      | true =>
        rw [runLoop_succ_next server q ps n cursor acc page hsrv hnp]
        rw [List.chain'_cons']
        refine ⟨?_, ih _ _⟩
        intro b hb
        cases hout : (runLoop server q ps n page.pageInfo.endCursor
            (processPage acc page)).steps with
        | nil => rw [hout] at hb; simp at hb
        | cons a l =>
          rw [hout] at hb
          simp only [List.head?_cons, Option.mem_def, Option.some.injEq] at hb
          refine ⟨page, rfl, hnp, ?_⟩
          rw [← hb, runLoop_head_req server q ps n page.pageInfo.endCursor
            (processPage acc page) a l hout]
      | false =>
        rw [runLoop_succ_last server q ps n cursor acc page hsrv hnp]
        simp

/-- A run that exits the loop (rather than running out of fuel) has made
at least one request. -/
theorem runLoop_completed_ne_nil (server : PageRequest → PageResponse)
    (q : String) (ps : Nat) (fuel : Nat) (cursor : Option String)
    (acc : SalesMap)
    (hc : (runLoop server q ps fuel cursor acc).completed = true) :
    (runLoop server q ps fuel cursor acc).steps ≠ [] := by
  cases fuel with
  | zero => simp [runLoop] at hc
  | succ n =>
    cases hsrv : server ⟨q, ps, truthyStr cursor⟩ with
    | err e =>
      rw [runLoop_succ_err server q ps n cursor acc e hsrv]
      simp
    | ok page =>
      cases hnp : page.pageInfo.hasNextPage with
      | true =>
        rw [runLoop_succ_next server q ps n cursor acc page hsrv hnp]
        simp
      | false =>
        rw [runLoop_succ_last server q ps n cursor acc page hsrv hnp]
        simp

/-- For an error-free completed run, every consumed page except the last
reported `hasNextPage = true` and the last one reported `false`: the
loop keeps requesting pages exactly while the server reports a next
page. -/
theorem runLoop_hnp_shape (server : PageRequest → PageResponse)
    (q : String) (ps : Nat) :
    ∀ fuel cursor acc,
      (runLoop server q ps fuel cursor acc).completed = true →
      (∀ stp ∈ (runLoop server q ps fuel cursor acc).steps,
        ∃ p, stp.resp = .ok p) →
      ∃ k, hnpList (runLoop server q ps fuel cursor acc).steps =
        List.replicate k true ++ [false] := by
  intro fuel
  induction fuel with
  | zero => intro cursor acc hc; simp [runLoop] at hc
  | succ n ih =>
    intro cursor acc hc hok
    cases hsrv : server ⟨q, ps, truthyStr cursor⟩ with
    | err e =>
      rw [runLoop_succ_err server q ps n cursor acc e hsrv] at hok
      exact absurd (hok _ (List.mem_singleton.mpr rfl)) (by simp)
    | ok page =>
      cases hnp : page.pageInfo.hasNextPage with
      | true =>
        rw [runLoop_succ_next server q ps n cursor acc page hsrv hnp] at hc hok ⊢
        obtain ⟨k, hk⟩ := ih page.pageInfo.endCursor (processPage acc page)
          (by simpa using hc)
          (fun stp h => hok stp (List.mem_cons_of_mem _ h))
        refine ⟨k + 1, ?_⟩
        simp only [hnpList, okPages, List.filterMap_cons, List.map_cons]
        simp only [hnpList, okPages] at hk
        rw [hk, hnp]
        simp [List.replicate_succ]
      | false =>
        rw [runLoop_succ_last server q ps n cursor acc page hsrv hnp]
        refine ⟨0, ?_⟩
        simp only [hnpList, okPages, List.filterMap_cons]
        simp [hnp]

def isOkResp : PageResponse → Bool
  | .ok _ => true
  | .err _ => false

theorem isOkResp_exists (r : PageResponse) (h : isOkResp r = true) :
    ∃ p, r = .ok p := by
  cases r with
  | ok p => exact ⟨p, rfl⟩
  | err e => simp [isOkResp] at h

/-- When every consumed page that reports a next page reports a truthy
(non-null, non-empty) `endCursor`, each follow-up request carries that
`endCursor` verbatim. -/
theorem runLoop_cursor_verbatim (server : PageRequest → PageResponse)
    (q : String) (ps : Nat) :
    ∀ fuel cursor acc,
      (∀ p ∈ okPages (runLoop server q ps fuel cursor acc).steps,
        p.pageInfo.hasNextPage = true →
        truthyStr p.pageInfo.endCursor = p.pageInfo.endCursor) →
      List.Chain'
        (fun a b => ∃ p, a.resp = .ok p ∧ p.pageInfo.hasNextPage = true ∧
          b.req.cursor = p.pageInfo.endCursor)
        (runLoop server q ps fuel cursor acc).steps := by
  intro fuel
  induction fuel with
  | zero => intro cursor acc _; simp [runLoop]
  | succ n ih =>
    intro cursor acc hcur
    cases hsrv : server ⟨q, ps, truthyStr cursor⟩ with
    | err e =>
      rw [runLoop_succ_err server q ps n cursor acc e hsrv]
      simp
    | ok page =>
      cases hnp : page.pageInfo.hasNextPage with
      | true =>
        rw [runLoop_succ_next server q ps n cursor acc page hsrv hnp] at hcur ⊢
        have hpage : truthyStr page.pageInfo.endCursor = page.pageInfo.endCursor := by
          refine hcur page ?_ hnp
          simp [okPages]
        rw [List.chain'_cons']
        constructor
        · intro b hb
          cases hout : (runLoop server q ps n page.pageInfo.endCursor
              (processPage acc page)).steps with
          | nil => rw [hout] at hb; simp at hb
          | cons a l =>
            rw [hout] at hb
            simp only [List.head?_cons, Option.mem_def, Option.some.injEq] at hb
            refine ⟨page, rfl, hnp, ?_⟩
            rw [← hb, runLoop_head_req server q ps n page.pageInfo.endCursor
              (processPage acc page) a l hout, hpage]
        · refine ih _ _ ?_
          intro p hp hpnp
          refine hcur p ?_ hpnp
          simp only [okPages, List.filterMap_cons, List.mem_cons]
          right
          exact hp
      | false =>
        rw [runLoop_succ_last server q ps n cursor acc page hsrv hnp]
        simp

/-- Claim C7 (amended): for one store, one SKU batch, a tag and a date
range, an error-free completed run of the paginated query client returns
the map sending each non-null, non-empty SKU to the summed quantities of
the line items bearing it across all consumed pages; every request
carries page size 250, the first request carries no cursor, each
follow-up request carries the previous page's `endCursor` verbatim (the
server-reported cursors being truthy), and pagination stops exactly at
the first page reporting `hasNextPage = false`. -/
theorem claim_c7_paginated_client (server : PageRequest → PageResponse)
    (skus : List String) (tag : String) (fromS toS : Option String)
    (days : Option Nat) (nowMinus : Nat → String) (fuel : Nat)
    (hskus : skus ≠ []) (htag : tag ≠ "")
    (hdone : (get_sales_by_skus_and_tag server skus tag fromS toS days
      nowMinus 250 fuel).completed = true)
    (hok : ∀ stp ∈ (get_sales_by_skus_and_tag server skus tag fromS toS days
      nowMinus 250 fuel).steps, isOkResp stp.resp = true)
    (hcur : ∀ p ∈ okPages (get_sales_by_skus_and_tag server skus tag fromS toS
      days nowMinus 250 fuel).steps, p.pageInfo.hasNextPage = true →
      truthyStr p.pageInfo.endCursor = p.pageInfo.endCursor) :
    (∀ s, s ≠ "" →
      mget (get_sales_by_skus_and_tag server skus tag fromS toS days
        nowMinus 250 fuel).sales s =
      ((okPages (get_sales_by_skus_and_tag server skus tag fromS toS days
        nowMinus 250 fuel).steps).map (pageCount s)).sum) ∧
    (∀ stp ∈ (get_sales_by_skus_and_tag server skus tag fromS toS days
      nowMinus 250 fuel).steps, stp.req.pageSize = 250) ∧
    (∀ stp rest, (get_sales_by_skus_and_tag server skus tag fromS toS days
      nowMinus 250 fuel).steps = stp :: rest → stp.req.cursor = none) ∧
    List.Chain'
      (fun a b => ∃ p, a.resp = .ok p ∧ p.pageInfo.hasNextPage = true ∧
        b.req.cursor = p.pageInfo.endCursor)
      (get_sales_by_skus_and_tag server skus tag fromS toS days
        nowMinus 250 fuel).steps ∧
    (∃ k, hnpList (get_sales_by_skus_and_tag server skus tag fromS toS days
      nowMinus 250 fuel).steps = List.replicate k true ++ [false]) := by
  have hcond : ¬ (skus = [] ∨ tag = "") := by
    rintro (h | h)
    · exact hskus h
    · exact htag h
  have hunfold : get_sales_by_skus_and_tag server skus tag fromS toS days
      nowMinus 250 fuel =
      runLoop server (buildQueryString skus tag fromS toS days nowMinus)
        250 fuel none [] := by
    unfold get_sales_by_skus_and_tag
    rw [if_neg hcond]
  rw [hunfold] at hdone hok hcur ⊢
  refine ⟨?_, ?_, ?_, ?_, ?_⟩
  · intro s hs
    rw [runLoop_sales server _ 250 s hs fuel none []]
    simp [mget]
  · intro stp h
    exact (runLoop_req_fixed server _ 250 fuel none [] stp h).1
  · intro stp rest h
    rw [runLoop_head_req server _ 250 fuel none [] stp rest h]
    rfl
  · exact runLoop_cursor_verbatim server _ 250 fuel none [] hcur
  · exact runLoop_hnp_shape server _ 250 fuel none []
      hdone (fun stp h => isOkResp_exists stp.resp (hok stp h))

/-- A two-page backing dataset used to exercise the client end to end. -/
def witServerC7 : PageRequest → PageResponse := fun r =>
  match r.cursor with
  | none => .ok ⟨[⟨[⟨some "A", 3⟩]⟩], ⟨true, some "c1"⟩⟩
  | some _ => .ok ⟨[⟨[⟨some "A", 4⟩, ⟨some "B", 2⟩]⟩], ⟨false, none⟩⟩

theorem claim_c7_witness :
    ((["A", "B"] : List String) ≠ [] ∧ ("t" : String) ≠ "" ∧
      (get_sales_by_skus_and_tag witServerC7 ["A", "B"] "t" none none none
        (fun _ => "now") 250 3).completed = true) ∧
    (∀ s, s ≠ "" →
      mget (get_sales_by_skus_and_tag witServerC7 ["A", "B"] "t" none none none
        (fun _ => "now") 250 3).sales s =
      ((okPages (get_sales_by_skus_and_tag witServerC7 ["A", "B"] "t" none none
        none (fun _ => "now") 250 3).steps).map (pageCount s)).sum) ∧
    (∀ stp ∈ (get_sales_by_skus_and_tag witServerC7 ["A", "B"] "t" none none
      none (fun _ => "now") 250 3).steps, stp.req.pageSize = 250) ∧
    (∀ stp rest, (get_sales_by_skus_and_tag witServerC7 ["A", "B"] "t" none
      none none (fun _ => "now") 250 3).steps = stp :: rest →
      stp.req.cursor = none) ∧
    List.Chain'
      (fun a b => ∃ p, a.resp = .ok p ∧ p.pageInfo.hasNextPage = true ∧
        b.req.cursor = p.pageInfo.endCursor)
      (get_sales_by_skus_and_tag witServerC7 ["A", "B"] "t" none none none
        (fun _ => "now") 250 3).steps ∧
    (∃ k, hnpList (get_sales_by_skus_and_tag witServerC7 ["A", "B"] "t" none
      none none (fun _ => "now") 250 3).steps =
      List.replicate k true ++ [false]) :=
  ⟨⟨by decide, by decide, by decide⟩,
    claim_c7_paginated_client witServerC7 ["A", "B"] "t" none none none
      (fun _ => "now") 3 (by decide) (by decide) (by decide) (by decide)
      (by decide)⟩

/-- A dataset whose single page carries a line item with a non-null but
empty sku. -/
def cexServerC7 : PageRequest → PageResponse :=
  fun _ => .ok ⟨[⟨[⟨some "", 5⟩]⟩], ⟨false, none⟩⟩

/-- Claim C7, as stated, is false: a line item with the non-null sku `""`
and quantity 5 is consumed, yet the returned map sends `""` to 0, not to
the summed quantity 5 (the code's `if sku:` check drops empty-string
skus, not only null ones). -/
theorem claim_c7_counterexample :
    ((okPages (get_sales_by_skus_and_tag cexServerC7 ["A"] "t" none none none
      (fun _ => "now") 250 2).steps).map (pageCount "")).sum = 5 ∧
    mget (get_sales_by_skus_and_tag cexServerC7 ["A"] "t" none none none
      (fun _ => "now") 250 2).sales "" = 0 := by
  constructor
  · decide
  · decide

/-! ## Store registry and products

`fetch_sales_data_from_stores` (app.py): settings resolution, store list
construction, SKU batching, the per-store fetch worker, and the merge of
per-store results.  Settings values are optional strings/naturals;
Python's `settings.get(key)` of an absent key is `none`. -/

structure StoreConfig where
  name : String
  url : String
  token : String
deriving DecidableEq

structure Settings where
  sales_order_tag : Option String
  sales_sync_days : Option Nat
  shopify_store_url : Option String
  shopify_access_token : Option String
  store_urls : Nat → Option String
  store_tokens : Nat → Option String

/-- The store list built at app.py:1072-1092: the main store first when
both of its credentials are truthy, then stores 2..6 in index order, each
appended only when both its url and token are truthy. -/
def buildStores (s : Settings) : List StoreConfig :=
  let main : List StoreConfig :=
    match truthyStr s.shopify_store_url, truthyStr s.shopify_access_token with
    | some u, some t => [⟨"Store 1 (Main)", u, t⟩]
    | _, _ => []
  (List.range' 2 5).foldl
    (fun acc i =>
      match truthyStr (s.store_urls i), truthyStr (s.store_tokens i) with
      | some u, some t => acc ++ [⟨s!"Store {i}", u, t⟩]
      | _, _ => acc) main

/-- Specification-side reading of the store registry contract: the main
entry (when complete) followed by the numbered stores 2..6 filtered to
the complete ones, in ascending order. -/
def specStoreAt (s : Settings) (i : Nat) : Option StoreConfig :=
  match truthyStr (s.store_urls i), truthyStr (s.store_tokens i) with
  | some u, some t => some ⟨s!"Store {i}", u, t⟩
  | _, _ => none

def specStores (s : Settings) : List StoreConfig :=
  (match truthyStr s.shopify_store_url, truthyStr s.shopify_access_token with
    | some u, some t => [⟨"Store 1 (Main)", u, t⟩]
    | _, _ => []) ++ [2, 3, 4, 5, 6].filterMap (specStoreAt s)

structure Product where
  id : Nat
  product_name : String
  upc_barcode : Option String
  quantity_per_case : Option Nat
deriving DecidableEq

/-- app.py:1098: `[p['upc_barcode'] for p in products if p.get('upc_barcode')]`. -/
def productSkus (products : List Product) : List String :=
  products.filterMap (fun p => truthyStr p.upc_barcode)

/-- app.py:1111: `[skus[i:i + 50] for i in range(0, len(skus), 50)]`,
written as a slice-off-50 loop with the list length as fuel (the fuel is
always sufficient, so the `0, _ :: _` branch is unreachable). -/
def chunkGo : Nat → List String → List (List String)
  | _, [] => []
  | 0, _ :: _ => []
  | f + 1, l => l.take 50 :: chunkGo f (l.drop 50)

def chunk50 (l : List String) : List (List String) :=
  chunkGo l.length l

structure StoreFetchResult where
  store : String
  success : Bool
  sales : SalesMap
  error : String
deriving DecidableEq

/-- `for sku, qty in src.items(): dst[sku] = dst.get(sku, 0) + qty`. -/
def mergeEntries (acc : SalesMap) (m : SalesMap) : SalesMap :=
  m.foldl (fun a p => madd a p.1 p.2) acc

/-- `fetch_store_sales` (app.py:1117-1141): one store's worker.  It calls
the paginated client once per SKU batch and sums the batch maps.  In this
embedding the `ShopifyAPI` constructor is pure and the client swallows
page-level errors (see `runLoop`), so the worker's `except` branch is
unreachable and the result always carries `success = True`.  Alongside
the result we record the page requests the worker issued. -/
def fetch_store_sales (server : PageRequest → PageResponse) (fuel : Nat)
    (sku_batches : List (List String)) (tag : String)
    (fromS toS : Option String) (days : Option Nat) (nowMinus : Nat → String)
    (storeName : String) : StoreFetchResult × List PageRequest :=
  let z := sku_batches.foldl
    (fun (acc : SalesMap × List PageRequest) batch =>
      let out := get_sales_by_skus_and_tag server batch tag fromS toS days
        nowMinus 250 fuel
      (mergeEntries acc.1 out.sales, acc.2 ++ out.steps.map (fun stp => stp.req)))
    ([], [])
  (⟨storeName, true, z.1, ""⟩, z.2)

/-- The `as_completed` merge loop (app.py:1147-1155): successful results
are summed key-wise into the running total, failed ones appended to the
failed-stores list. -/
def mergeResults (results : List StoreFetchResult) :
    SalesMap × List (String × String) :=
  results.foldl
    (fun acc r =>
      if r.success then (mergeEntries acc.1 r.sales, acc.2)
      else (acc.1, acc.2 ++ [(r.store, r.error)]))
    ([], [])

structure SyncOutcome where
  sales_by_sku : SalesMap
  stores_processed : Nat
  stores_failed : List (String × String)
  date_from : String
  date_to : String
  date_days : Nat
  tag_used : String
deriving DecidableEq

structure DateRange where
  fromS : String
  toS : String
  infoDays : Nat
  effDays : Option Nat
deriving DecidableEq

/-- Date-range resolution (app.py:1046-1070).  Datetimes are carried as
their formatted strings: `nowMinus d` is `datetime.now() - timedelta(d)`
and `diffDays f t` is `(to_date - from_date).days`.  After this block
both bounds are always concrete and are what every client call gets. -/
def resolveDates (settings : Settings) (from_date to_date : Option String)
    (days : Option Nat) (nowMinus : Nat → String)
    (diffDays : String → String → Nat) : DateRange :=
  match from_date, to_date with
  | some f, some t => ⟨f, t, diffDays f t + 1, days⟩
  | _, _ =>
    match days with
    | some d =>
      if d = 0 then
        let d30 := settings.sales_sync_days.getD 30
        ⟨nowMinus d30, nowMinus 0, d30, some d30⟩
      else ⟨nowMinus d, nowMinus 0, d, some d⟩
    | none =>
      let d30 := settings.sales_sync_days.getD 30
      ⟨nowMinus d30, nowMinus 0, d30, some d30⟩

/-- Python's `str.strip()`: drop whitespace from both ends (written over
the character list so that it evaluates inside the kernel). -/
def pyStrip (s : String) : String :=
  ⟨((s.data.dropWhile Char.isWhitespace).reverse.dropWhile
    Char.isWhitespace).reverse⟩

/-- `fetch_sales_data_from_stores` (app.py:1014-1165).  The endpoint of
each store is abstracted by `serverOf`, per-store loop fuel by `fuelOf`,
and the non-deterministic `as_completed` completion order by `sched`
(assumed to permute its input).  The second component of the result is
the list of page requests issued, in store order — empty on both error
paths, which is how "no network I/O" is observed. -/
def fetch_sales_data_from_stores
    (serverOf : StoreConfig → PageRequest → PageResponse)
    (fuelOf : StoreConfig → Nat)
    (sched : List StoreFetchResult → List StoreFetchResult)
    (products : List Product) (settings : Settings)
    (from_date to_date : Option String) (days : Option Nat)
    (nowMinus : Nat → String) (diffDays : String → String → Nat) :
    Except String SyncOutcome × List PageRequest :=
  let tag := pyStrip (settings.sales_order_tag.getD "")
  if tag = "" then (.error "Sales Order Tag not configured in settings", [])
  else
    let dr := resolveDates settings from_date to_date days nowMinus diffDays
    let stores := buildStores settings
    if stores = [] then (.error "No Shopify stores configured", [])
    else
      let skus := productSkus products
      if skus = [] then
        (.ok ⟨[], 0, [], dr.fromS, dr.toS, dr.infoDays, tag⟩, [])
      else
        let sku_batches := chunk50 skus
        let fetched := stores.map (fun st =>
          fetch_store_sales (serverOf st) (fuelOf st) sku_batches tag
            (some dr.fromS) (some dr.toS) dr.effDays nowMinus st.name)
        let results := sched (fetched.map Prod.fst)
        let merged := mergeResults results
        (.ok ⟨merged.1, stores.length - merged.2.length, merged.2,
            dr.fromS, dr.toS, dr.infoDays, tag⟩,
          (fetched.map Prod.snd).flatten)

/-! ## The progress generator

`sync_products_sales.generate_progress` (app.py:1182-1304), as the list
of actions it performs: the SSE events it yields plus a `dbWrite` marker
for the single `database.bulk_update_sales` call.  Per-product processing
is pure in this embedding, so the per-product `except` branch (status
`error`) is unreachable; the bulk write is modelled as succeeding. -/

inductive Ev where
  | start (total current : Nat)
  | status (msg : String)
  | progress (current total : Nat) (name st msg : String) (qty : Option Nat)
  | error (msg : String)
  | dbWrite (updates : List (Nat × Nat))
  | complete (synced notFound total storesProcessed storesFailed : Nat)
deriving DecidableEq

/-- `math.ceil(total_sales / quantity_per_case) * quantity_per_case` for
positive naturals: exact ceiling division times the case size. -/
def roundCeilMul (total qpc : Nat) : Nat :=
  ((total + qpc - 1) / qpc) * qpc

structure ProdState where
  updates : List (Nat × Nat)
  synced : Nat
  notFound : Nat
  notFoundProducts : List (String × String)
  events : List Ev
deriving DecidableEq

/-- The body of the per-product loop (app.py:1245-1278). -/
def processOneProduct (total_products : Nat) (sales_by_sku : SalesMap)
    (idx : Nat) (p : Product) (st : ProdState) : ProdState :=
  let current := idx + 1
  match truthyStr p.upc_barcode with
  | none =>
    { st with events := st.events ++
        [.progress current total_products p.product_name "skipped"
          "No UPC barcode" none] }
  | some sku =>
    let qpc := p.quantity_per_case.getD 0
    let total_sales := mget sales_by_sku sku
    if total_sales > 0 then
      let oq := if qpc > 0 then roundCeilMul total_sales qpc else total_sales
      { st with
        updates := st.updates ++ [(p.id, oq)]
        synced := st.synced + 1
        events := st.events ++
          [.progress current total_products p.product_name "synced" ""
            (some oq)] }
    else
      let fq := if qpc > 0 then qpc else 0
      { st with
        updates := st.updates ++ [(p.id, fq)]
        notFound := st.notFound + 1
        notFoundProducts := st.notFoundProducts ++ [(p.product_name, sku)]
        events := st.events ++
          [.progress current total_products p.product_name "not_found" ""
            (some fq)] }

def processProducts (total_products : Nat) (sales_by_sku : SalesMap) :
    List Product → Nat → ProdState → ProdState
  | [], _, st => st
  | p :: rest, idx, st =>
    processProducts total_products sales_by_sku rest (idx + 1)
      (processOneProduct total_products sales_by_sku idx p st)

def initProdState : ProdState := ⟨[], 0, 0, [], []⟩

/-- app.py:1190-1193: `sales_sync_days` sanitised to a positive count,
defaulting to 30 (non-integers are also mapped to 30; they are outside
this embedding's `Option Nat` settings type). -/
def sanitizeDays (v : Option Nat) : Nat :=
  match v with
  | some n => if n < 1 then 30 else n
  | none => 30

/-- app.py:1196-1201: restrict to the requested product ids, when given. -/
def filterProducts (all_products : List Product)
    (product_ids : Option (List Nat)) : List Product :=
  match product_ids with
  | some ids => all_products.filter (fun p => ids.contains p.id)
  | none => all_products

/-- `generate_progress`, returning the action trace together with the
page requests the embedded fetch issued. -/
def generate_progress
    (serverOf : StoreConfig → PageRequest → PageResponse)
    (fuelOf : StoreConfig → Nat)
    (sched : List StoreFetchResult → List StoreFetchResult)
    (settings : Settings) (all_products : List Product)
    (product_ids : Option (List Nat))
    (nowMinus : Nat → String) (diffDays : String → String → Nat) :
    List Ev × List PageRequest :=
  let sales_sync_days := sanitizeDays settings.sales_sync_days
  let products := filterProducts all_products product_ids
  let total := products.length
  let ev0 : List Ev :=
    [.start total 0, .status "Fetching sales data from all stores..."]
  match fetch_sales_data_from_stores serverOf fuelOf sched products
      settings none none (some sales_sync_days) nowMinus diffDays with
  | (.error e, reqs) => (ev0 ++ [.error e], reqs)
  | (.ok res, reqs) =>
    let ev1 := ev0 ++
      [.status s!"Fetched sales from {res.stores_processed} store(s)"]
    let ev2 := ev1 ++ res.stores_failed.map
      (fun f => .status s!"failed {f.1}: {f.2}")
    let st := processProducts total res.sales_by_sku products 0 initProdState
    let ev3 := ev2 ++ st.events
    let ev4 :=
      if st.updates = [] then ev3
      else ev3 ++ [.dbWrite st.updates,
        .status s!"Updated {st.updates.length} product(s) in database"]
    (ev4 ++ [.complete st.synced st.notFound total res.stores_processed
      res.stores_failed.length], reqs)

def isProgressEv : Ev → Bool
  | .progress _ _ _ _ _ _ => true
  | _ => false

def isDbWriteEv : Ev → Bool
  | .dbWrite _ => true
  | _ => false

def isSkippedEv : Ev → Bool
  | .progress _ _ _ s _ _ => s == "skipped"
  | _ => false

def isErrorEv : Ev → Bool
  | .error _ => true
  | _ => false

def countDbWrites (tr : List Ev) : Nat :=
  (tr.filter isDbWriteEv).length

/-- Checks that no `progress` event follows any `dbWrite` action: the
database write happens only after every per-product computation. -/
def writesAfterProgress : List Ev → Bool
  | [] => true
  | e :: rest =>
    (if isDbWriteEv e then rest.all (fun x => !isProgressEv x) else true) &&
      writesAfterProgress rest

/-! ## Lemmas about batching, merging and the store registry -/

theorem chunkGo_nil (f : Nat) : chunkGo f [] = [] := by
  cases f <;> rfl

theorem chunkGo_cons (f : Nat) (l : List String) (h : l ≠ []) :
    chunkGo (f + 1) l = l.take 50 :: chunkGo f (l.drop 50) := by
  cases l with
  | nil => exact absurd rfl h
  | cons a t => rfl

theorem chunkGo_eq_nil_iff (f : Nat) (l : List String) :
    chunkGo (f + 1) l = [] ↔ l = [] := by
  cases l with
  | nil => simp [chunkGo_nil]
  | cons a t =>
    rw [chunkGo_cons (f) (a :: t) (by simp)]
    simp

theorem chunkGo_flatten :
    ∀ (f : Nat) (l : List String), l.length ≤ f →
      (chunkGo f l).flatten = l := by
  intro f
  induction f with
  | zero =>
    intro l h
    have : l = [] := List.eq_nil_of_length_eq_zero (Nat.le_zero.mp h)
    subst this
    rfl
  | succ n ih =>
    intro l h
    cases l with
    | nil => rfl
    | cons a t =>
      rw [chunkGo_cons n (a :: t) (by simp)]
      rw [List.flatten_cons]
      rw [ih ((a :: t).drop 50) (by
        rw [List.length_drop]
        simp only [List.length_cons] at h ⊢
        omega)]
      exact List.take_append_drop 50 (a :: t)

theorem chunkGo_mem :
    ∀ (f : Nat) (l : List String) (b : List String), l.length ≤ f →
      b ∈ chunkGo f l → b.length ≤ 50 ∧ b ≠ [] := by
  intro f
  induction f with
  | zero =>
    intro l b h hb
    have : l = [] := List.eq_nil_of_length_eq_zero (Nat.le_zero.mp h)
    subst this
    simp [chunkGo_nil] at hb
  | succ n ih =>
    intro l b h hb
    cases l with
    | nil => simp [chunkGo_nil] at hb
    | cons a t =>
      rw [chunkGo_cons n (a :: t) (by simp)] at hb
      rcases List.mem_cons.mp hb with hb | hb
      · subst hb
        refine ⟨by simp, ?_⟩
        simp
      · exact ih ((a :: t).drop 50) b (by
          rw [List.length_drop]
          simp only [List.length_cons] at h ⊢
          omega) hb

theorem chunkGo_dropLast :
    ∀ (f : Nat) (l : List String) (b : List String), l.length ≤ f →
      b ∈ (chunkGo f l).dropLast → b.length = 50 := by
  intro f
  induction f with
  | zero =>
    intro l b h hb
    have : l = [] := List.eq_nil_of_length_eq_zero (Nat.le_zero.mp h)
    subst this
    simp [chunkGo_nil] at hb
  | succ n ih =>
    intro l b h hb
    cases l with
    | nil => simp [chunkGo_nil] at hb
    | cons a t =>
      rw [chunkGo_cons n (a :: t) (by simp)] at hb
      cases hrest : chunkGo n ((a :: t).drop 50) with
      | nil => rw [hrest] at hb; simp at hb
      | cons c cs =>
        rw [hrest] at hb
        rw [List.dropLast_cons_of_ne_nil (by simp)] at hb
        rcases List.mem_cons.mp hb with hb | hb
        · subst hb
          have hdrop : (a :: t).drop 50 ≠ [] := by
            intro hd
            rw [hd, chunkGo_nil] at hrest
            exact List.noConfusion hrest
          have hlen : 50 < (a :: t).length := by
            have hld := List.length_drop 50 (a :: t)
            have hpos : 0 < ((a :: t).drop 50).length :=
              List.length_pos.mpr hdrop
            omega
          rw [List.length_take]
          simp only [List.length_cons] at hlen ⊢
          omega
        · refine ih ((a :: t).drop 50) b (by
            rw [List.length_drop]
            simp only [List.length_cons] at h ⊢
            omega) ?_
          rw [hrest]
          exact hb

theorem mget_mergeEntries :
    ∀ (m acc : SalesMap) (s : String),
      mget (mergeEntries acc m) s = mget acc s + entrySum m s := by
  intro m
  induction m with
  | nil => intro acc s; simp [mergeEntries, entrySum]
  | cons hd tl ih =>
    intro acc s
    simp only [mergeEntries, List.foldl_cons] at *
    rw [ih (madd acc hd.1 hd.2) s, mget_madd]
    simp only [entrySum, List.map_cons, List.sum_cons]
    omega

theorem mergeResults_foldl_sales (s : String) :
    ∀ (l : List StoreFetchResult) (acc : SalesMap × List (String × String)),
      mget (l.foldl
        (fun acc r =>
          if r.success then (mergeEntries acc.1 r.sales, acc.2)
          else (acc.1, acc.2 ++ [(r.store, r.error)])) acc).1 s =
      mget acc.1 s +
        (l.map (fun r => if r.success then entrySum r.sales s else 0)).sum := by
  intro l
  induction l with
  | nil => intro acc; simp
  | cons hd tl ih =>
    intro acc
    simp only [List.foldl_cons, List.map_cons, List.sum_cons]
    cases hs : hd.success with
    | true =>
      rw [if_pos rfl, if_pos rfl, ih, mget_mergeEntries]
      omega
    | false =>
      rw [if_neg (by simp), if_neg (by simp), ih]
      dsimp only
      omega

theorem mergeResults_sales (l : List StoreFetchResult) (s : String) :
    mget (mergeResults l).1 s =
      (l.map (fun r => if r.success then entrySum r.sales s else 0)).sum := by
  have h := mergeResults_foldl_sales s l ([], [])
  simpa [mergeResults, mget] using h

theorem mergeResults_foldl_failed :
    ∀ (l : List StoreFetchResult) (acc : SalesMap × List (String × String)),
      (l.foldl
        (fun acc r =>
          if r.success then (mergeEntries acc.1 r.sales, acc.2)
          else (acc.1, acc.2 ++ [(r.store, r.error)])) acc).2 =
      acc.2 ++ (l.filterMap
        (fun r => if r.success then none else some (r.store, r.error))) := by
  intro l
  induction l with
  | nil => intro acc; simp
  | cons hd tl ih =>
    intro acc
    simp only [List.foldl_cons, List.filterMap_cons]
    cases hs : hd.success with
    | true => rw [if_pos rfl] at *; simp [ih]
    | false =>
      rw [if_neg (by simp), if_neg (by simp), ih]
      simp

theorem mergeResults_failed (l : List StoreFetchResult) :
    (mergeResults l).2 =
      l.filterMap (fun r => if r.success then none else some (r.store, r.error)) := by
  have h := mergeResults_foldl_failed l ([], [])
  simpa [mergeResults] using h

theorem buildStores_foldl (s : Settings) :
    ∀ (l : List Nat) (acc : List StoreConfig),
      l.foldl
        (fun acc i =>
          match truthyStr (s.store_urls i), truthyStr (s.store_tokens i) with
          | some u, some t => acc ++ [⟨s!"Store {i}", u, t⟩]
          | _, _ => acc) acc =
      acc ++ l.filterMap (specStoreAt s) := by
  intro l
  induction l with
  | nil => intro acc; simp
  | cons hd tl ih =>
    intro acc
    simp only [List.foldl_cons, List.filterMap_cons]
    cases hu : truthyStr (s.store_urls hd) with
    | none => simp only [specStoreAt, hu]; rw [ih]
    | some u =>
      cases ht : truthyStr (s.store_tokens hd) with
      | none => simp only [specStoreAt, hu, ht]; rw [ih]
      | some t =>
        simp only [specStoreAt, hu, ht]
        rw [ih]
        simp

/-! ## Lemmas about rounding and per-product processing -/

theorem roundCeilMul_spec (raw qpc : Nat) (hraw : 0 < raw) (hqpc : 0 < qpc) :
    qpc ∣ roundCeilMul raw qpc ∧ raw ≤ roundCeilMul raw qpc ∧
      roundCeilMul raw qpc < raw + qpc := by
  unfold roundCeilMul
  refine ⟨dvd_mul_left qpc _, ?_, ?_⟩
  · have h1 := Nat.div_add_mod (raw + qpc - 1) qpc
    have h2 := Nat.mod_lt (raw + qpc - 1) hqpc
    rw [Nat.mul_comm]
    generalize hK : qpc * ((raw + qpc - 1) / qpc) = K at h1 ⊢
    omega
  · have h1 := Nat.div_add_mod (raw + qpc - 1) qpc
    have h2 := Nat.mod_lt (raw + qpc - 1) hqpc
    rw [Nat.mul_comm]
    generalize hK : qpc * ((raw + qpc - 1) / qpc) = K at h1 ⊢
    omega

/-- The update entry the per-product loop appends for one product, read
off app.py:1245-1278 (products without a truthy barcode append none). -/
def updateOf (m : SalesMap) (p : Product) : Option (Nat × Nat) :=
  match truthyStr p.upc_barcode with
  | none => none
  | some sku =>
    let qpc := p.quantity_per_case.getD 0
    let raw := mget m sku
    if raw > 0 then
      some (p.id, if qpc > 0 then roundCeilMul raw qpc else raw)
    else
      some (p.id, if qpc > 0 then qpc else 0)

theorem processOneProduct_updates (tp : Nat) (m : SalesMap) (idx : Nat)
    (p : Product) (st : ProdState) :
    (processOneProduct tp m idx p st).updates =
      st.updates ++ (updateOf m p).toList := by
  unfold processOneProduct updateOf
  cases hb : truthyStr p.upc_barcode with
  | none => simp
  | some sku =>
    by_cases ht : mget m sku > 0
    · by_cases hq : p.quantity_per_case.getD 0 > 0 <;> simp [ht, hq]
    · by_cases hq : p.quantity_per_case.getD 0 > 0 <;> simp [ht, hq]

theorem isSkippedEv_progress (c t : Nat) (n s msg : String) (q : Option Nat) :
    isSkippedEv (.progress c t n s msg q) = true ↔ s = "skipped" := by
  simp [isSkippedEv]

theorem processOneProduct_event (tp : Nat) (m : SalesMap) (idx : Nat)
    (p : Product) (st : ProdState) :
    ∃ e, (processOneProduct tp m idx p st).events = st.events ++ [e] ∧
      isProgressEv e = true ∧ isDbWriteEv e = false ∧
      (isSkippedEv e = true ↔ truthyStr p.upc_barcode = none) := by
  unfold processOneProduct
  cases hb : truthyStr p.upc_barcode with
  | none =>
    refine ⟨Ev.progress (idx + 1) tp p.product_name "skipped" "No UPC barcode"
      none, by simp, rfl, rfl, ?_⟩
    rw [isSkippedEv_progress]
    exact iff_of_true rfl rfl
  | some sku =>
    by_cases ht : mget m sku > 0
    · by_cases hq : p.quantity_per_case.getD 0 > 0
      · refine ⟨Ev.progress (idx + 1) tp p.product_name "synced" ""
            (some (roundCeilMul (mget m sku) (p.quantity_per_case.getD 0))),
            by simp [ht, hq], rfl, rfl, ?_⟩
        rw [isSkippedEv_progress]
        exact iff_of_false (by decide) (by simp)
      · refine ⟨Ev.progress (idx + 1) tp p.product_name "synced" ""
            (some (mget m sku)), by simp [ht, hq], rfl, rfl, ?_⟩
        rw [isSkippedEv_progress]
        exact iff_of_false (by decide) (by simp)
    · refine ⟨Ev.progress (idx + 1) tp p.product_name "not_found" ""
          (some (if 0 < p.quantity_per_case.getD 0 then
            p.quantity_per_case.getD 0 else 0)), by simp [ht], rfl, rfl, ?_⟩
      rw [isSkippedEv_progress]
      exact iff_of_false (by decide) (by simp)

theorem processProducts_updates (tp : Nat) (m : SalesMap) :
    ∀ (l : List Product) (idx : Nat) (st : ProdState),
      (processProducts tp m l idx st).updates =
        st.updates ++ l.filterMap (updateOf m) := by
  intro l
  induction l with
  | nil => intro idx st; simp [processProducts]
  | cons p rest ih =>
    intro idx st
    simp only [processProducts, List.filterMap_cons]
    rw [ih, processOneProduct_updates]
    cases h : updateOf m p with
    | none => simp
    | some u => simp

theorem processProducts_events_props (tp : Nat) (m : SalesMap) :
    ∀ (l : List Product) (idx : Nat) (st : ProdState),
      (processProducts tp m l idx st).events.length =
        st.events.length + l.length ∧
      ((processProducts tp m l idx st).events.filter isSkippedEv).length =
        (st.events.filter isSkippedEv).length +
          (l.filter (fun p => (truthyStr p.upc_barcode).isNone)).length ∧
      ((processProducts tp m l idx st).events.filter isDbWriteEv).length =
        (st.events.filter isDbWriteEv).length := by
  intro l
  induction l with
  | nil => intro idx st; simp [processProducts]
  | cons p rest ih =>
    intro idx st
    obtain ⟨e, he, hprog, hdb, hskip⟩ := processOneProduct_event tp m idx p st
    obtain ⟨ih1, ih2, ih3⟩ := ih (idx + 1) (processOneProduct tp m idx p st)
    refine ⟨?_, ?_, ?_⟩
    · simp only [processProducts, ih1, he, List.length_append,
        List.length_cons, List.length_nil]
      omega
    · simp only [processProducts, ih2, he, List.filter_append,
        List.length_append, List.filter_cons]
      cases hpn : truthyStr p.upc_barcode with
      | none =>
        have hse : isSkippedEv e = true := hskip.mpr hpn
        simp only [hse, if_true, List.filter_nil, List.length_cons,
          List.length_nil, Option.isNone_none, if_pos rfl]
        omega
      | some sku =>
        have hse : isSkippedEv e = false := by
          cases hse : isSkippedEv e with
          | true => rw [hskip.mp hse] at hpn; exact Option.noConfusion hpn
          | false => rfl
        simp only [hse, List.filter_nil, List.length_nil, Option.isNone_some]
        simp
    · simp only [processProducts, ih3, he, List.filter_append,
        List.length_append, List.filter_cons, hdb]
      simp

/-! ## Claims about rounding, batching, the registry, merging and the
client's trivial paths -/

/-- The property claim C2 asserts of one product with truthy sku `sku`
processed against the merged aggregate `m`: exactly one update entry is
appended; with positive sales and a positive case size the recorded
quantity is the least multiple of the case size at or above the raw
quantity (that is, `ceil(raw/qpc)*qpc`); with a zero case size it is the
raw quantity; with zero raw sales it is one case (or zero) and the
product is counted not-found while still updated. -/
def caseRoundingSpec (tp : Nat) (m : SalesMap) (idx : Nat) (p : Product)
    (st : ProdState) (sku : String) : Prop :=
  ∃ oq,
    (processOneProduct tp m idx p st).updates = st.updates ++ [(p.id, oq)] ∧
    (0 < mget m sku → 0 < p.quantity_per_case.getD 0 →
      p.quantity_per_case.getD 0 ∣ oq ∧ mget m sku ≤ oq ∧
        oq < mget m sku + p.quantity_per_case.getD 0) ∧
    (0 < mget m sku → p.quantity_per_case.getD 0 = 0 → oq = mget m sku) ∧
    (mget m sku = 0 →
      oq = (if 0 < p.quantity_per_case.getD 0 then p.quantity_per_case.getD 0
        else 0) ∧
      (processOneProduct tp m idx p st).notFound = st.notFound + 1 ∧
      (processOneProduct tp m idx p st).synced = st.synced) ∧
    (0 < mget m sku →
      (processOneProduct tp m idx p st).synced = st.synced + 1 ∧
      (processOneProduct tp m idx p st).notFound = st.notFound)

/-- Claim C2: per-product case rounding follows the claimed three-case
rule, with the zero-sales products counted as not-found while still
receiving an update entry. -/
theorem claim_c2_case_rounding (tp : Nat) (m : SalesMap) (idx : Nat)
    (p : Product) (st : ProdState) (sku : String)
    (hsku : truthyStr p.upc_barcode = some sku) :
    caseRoundingSpec tp m idx p st sku := by
  unfold caseRoundingSpec processOneProduct
  rw [hsku]
  by_cases ht : mget m sku > 0
  · by_cases hq : 0 < p.quantity_per_case.getD 0
    · refine ⟨roundCeilMul (mget m sku) (p.quantity_per_case.getD 0),
        by simp [ht, hq], ?_, ?_, ?_, ?_⟩
      · intro _ _
        exact roundCeilMul_spec (mget m sku) (p.quantity_per_case.getD 0) ht hq
      · intro _ h0; omega
      · intro h0; omega
      · intro _; simp [ht, hq]
    · refine ⟨mget m sku, by simp [ht, hq], ?_, ?_, ?_, ?_⟩
      · intro _ h; omega
      · intro _ _; rfl
      · intro h0; omega
      · intro _; simp [ht, hq]
  · have ht0 : mget m sku = 0 := by omega
    refine ⟨if 0 < p.quantity_per_case.getD 0 then p.quantity_per_case.getD 0
        else 0, ?_, ?_, ?_, ?_, ?_⟩
    · by_cases hq : 0 < p.quantity_per_case.getD 0 <;> simp [ht, hq]
    · intro h _; omega
    · intro h _; omega
    · intro _
      by_cases hq : 0 < p.quantity_per_case.getD 0 <;> simp [ht, hq]
    · intro h; omega

theorem claim_c2_rounding_witness :
    (processOneProduct 3 [("A", 10)] 0 ⟨1, "PA", some "A", some 4⟩
      initProdState).updates = [(1, 12)] ∧
    (processOneProduct 3 [("B", 7)] 0 ⟨2, "PB", some "B", some 0⟩
      initProdState).updates = [(2, 7)] ∧
    (processOneProduct 3 [] 0 ⟨3, "PC", some "C", some 6⟩
      initProdState).updates = [(3, 6)] ∧
    (processOneProduct 3 [] 0 ⟨3, "PC", some "C", some 6⟩
      initProdState).notFound = 1 ∧
    truthyStr (some "A") = some "A" ∧
    caseRoundingSpec 3 [("A", 10)] 0 ⟨1, "PA", some "A", some 4⟩
      initProdState "A" :=
  ⟨by decide, by decide, by decide, by decide, by decide,
    claim_c2_case_rounding 3 [("A", 10)] 0 ⟨1, "PA", some "A", some 4⟩
      initProdState "A" (by decide)⟩

/-- Claim C3: the resolved store list is exactly the main store (included
iff both of its credentials are present and non-empty) followed by
stores 2..6 in ascending index order, each included iff both its url and
token are non-empty; incomplete entries are skipped without affecting
the others. -/
theorem claim_c3_store_registry (s : Settings) :
    buildStores s = specStores s := by
  unfold buildStores specStores
  rw [buildStores_foldl s (List.range' 2 5)]
  rfl

/-- Claim C5: the SKUs of barcode-bearing products are partitioned into
consecutive batches of at most 50 in original order (all batches full
except possibly the last), concatenating the batches reproduces exactly
the barcode sequence, and the per-product loop emits exactly one
progress event per product, with exactly the barcode-less products
marked skipped (they contribute no SKU to any batch). -/
theorem claim_c5_batching (products : List Product) :
    (chunk50 (productSkus products)).flatten = productSkus products ∧
    (∀ b ∈ chunk50 (productSkus products), b.length ≤ 50 ∧ b ≠ []) ∧
    (∀ b ∈ (chunk50 (productSkus products)).dropLast, b.length = 50) ∧
    (∀ (tp : Nat) (m : SalesMap),
      (processProducts tp m products 0 initProdState).events.length =
        products.length ∧
      ((processProducts tp m products 0 initProdState).events.filter
        isSkippedEv).length =
        (products.filter (fun p => (truthyStr p.upc_barcode).isNone)).length) := by
  refine ⟨chunkGo_flatten _ _ (Nat.le_refl _), ?_, ?_, ?_⟩
  · intro b hb
    exact chunkGo_mem _ _ b (Nat.le_refl _) hb
  · intro b hb
    exact chunkGo_dropLast _ _ b (Nat.le_refl _) hb
  · intro tp m
    obtain ⟨h1, h2, _⟩ := processProducts_events_props tp m products 0 initProdState
    constructor
    · simpa [initProdState] using h1
    · simpa [initProdState] using h2

theorem claim_c5_witness :
    ((chunk50 (productSkus [⟨1, "PA", some "A", some 4⟩,
      ⟨2, "PB", none, some 2⟩, ⟨3, "PC", some "C", none⟩])).flatten =
      ["A", "C"]) ∧
    (["A", "C"] ∈ chunk50 (productSkus [⟨1, "PA", some "A", some 4⟩,
      ⟨2, "PB", none, some 2⟩, ⟨3, "PC", some "C", none⟩]) →
      (["A", "C"] : List String).length ≤ 50 ∧ (["A", "C"] : List String) ≠ []) ∧
    (∀ tp m, (processProducts tp m [⟨1, "PA", some "A", some 4⟩,
        ⟨2, "PB", none, some 2⟩, ⟨3, "PC", some "C", none⟩] 0
        initProdState).events.length = 3) := by
  have h := claim_c5_batching [⟨1, "PA", some "A", some 4⟩,
    ⟨2, "PB", none, some 2⟩, ⟨3, "PC", some "C", none⟩]
  refine ⟨by decide, fun hb => h.2.1 _ hb, fun tp m => ?_⟩
  exact (h.2.2.2 tp m).1

/-- Claim C6: merging a list of per-store fetch results sums, key-wise,
exactly the successful stores' maps, so the merged aggregate is
pointwise invariant under any permutation of the completion order. -/
theorem claim_c6_merge_commutes :
    (∀ (l : List StoreFetchResult) (s : String),
      mget (mergeResults l).1 s =
        (l.map (fun r => if r.success then entrySum r.sales s else 0)).sum) ∧
    (∀ (l₁ l₂ : List StoreFetchResult), l₁.Perm l₂ → ∀ s : String,
      mget (mergeResults l₁).1 s = mget (mergeResults l₂).1 s) := by
  refine ⟨mergeResults_sales, ?_⟩
  intro l₁ l₂ hperm s
  rw [mergeResults_sales, mergeResults_sales]
  exact (hperm.map (fun r => if r.success then entrySum r.sales s else 0)).sum_eq

theorem claim_c6_witness :
    ([⟨"S1", true, [("A", 3)], ""⟩, ⟨"S2", true, [("A", 4), ("B", 2)], ""⟩] :
      List StoreFetchResult).Perm
      [⟨"S2", true, [("A", 4), ("B", 2)], ""⟩, ⟨"S1", true, [("A", 3)], ""⟩] ∧
    mget (mergeResults [⟨"S1", true, [("A", 3)], ""⟩,
      ⟨"S2", true, [("A", 4), ("B", 2)], ""⟩]).1 "A" =
    mget (mergeResults [⟨"S2", true, [("A", 4), ("B", 2)], ""⟩,
      ⟨"S1", true, [("A", 3)], ""⟩]).1 "A" :=
  ⟨by decide,
    claim_c6_merge_commutes.2 _ _ (by decide) "A"⟩

/-- Claim C10: with an empty SKU list or an empty order tag the client
returns the empty map at once, completing without issuing any request —
indistinguishable at the interface from a run that matched no orders. -/
theorem claim_c10_empty_inputs (server : PageRequest → PageResponse)
    (skus : List String) (order_tag : String) (fromS toS : Option String)
    (days : Option Nat) (nowMinus : Nat → String) (pageSize fuel : Nat)
    (h : skus = [] ∨ order_tag = "") :
    get_sales_by_skus_and_tag server skus order_tag fromS toS days nowMinus
      pageSize fuel = ⟨[], [], true⟩ := by
  unfold get_sales_by_skus_and_tag
  rw [if_pos h]

theorem claim_c10_witness :
    (([] : List String) = [] ∨ ("warehouse" : String) = "") ∧
    get_sales_by_skus_and_tag (fun _ => .err "unreachable") [] "warehouse"
      none none none (fun _ => "now") 250 9 = ⟨[], [], true⟩ :=
  ⟨Or.inl rfl,
    claim_c10_empty_inputs (fun _ => .err "unreachable") [] "warehouse"
      none none none (fun _ => "now") 250 9 (Or.inl rfl)⟩

theorem runLoop_congr (s1 s2 : PageRequest → PageResponse)
    (h : ∀ r, s1 r = s2 r) (q : String) (ps : Nat) :
    ∀ fuel cursor acc,
      runLoop s1 q ps fuel cursor acc = runLoop s2 q ps fuel cursor acc := by
  intro fuel
  induction fuel with
  | zero => intro cursor acc; rfl
  | succ n ih =>
    intro cursor acc
    cases hsrv : s1 ⟨q, ps, truthyStr cursor⟩ with
    | err e =>
      rw [runLoop_succ_err s1 q ps n cursor acc e hsrv,
        runLoop_succ_err s2 q ps n cursor acc e (by rw [← h]; exact hsrv)]
    | ok page =>
      have hs2 : s2 ⟨q, ps, truthyStr cursor⟩ = .ok page := by
        rw [← h]; exact hsrv
      cases hnp : page.pageInfo.hasNextPage with
      | true =>
        rw [runLoop_succ_next s1 q ps n cursor acc page hsrv hnp,
          runLoop_succ_next s2 q ps n cursor acc page hs2 hnp, ih]
      | false =>
        rw [runLoop_succ_last s1 q ps n cursor acc page hsrv hnp,
          runLoop_succ_last s2 q ps n cursor acc page hs2 hnp]

/-- Claim C8: against backing datasets that answer every request
identically, two runs of the client with the same SKUs, tag and explicit
from/to range return identical results — whatever the `days` parameter
and the ambient clock, which the explicit range overrides. -/
theorem claim_c8_idempotent_fetch (s1 s2 : PageRequest → PageResponse)
    (h : ∀ r, s1 r = s2 r) (skus : List String) (tag f t : String)
    (d1 d2 : Option Nat) (n1 n2 : Nat → String) (pageSize fuel : Nat) :
    get_sales_by_skus_and_tag s1 skus tag (some f) (some t) d1 n1
      pageSize fuel =
    get_sales_by_skus_and_tag s2 skus tag (some f) (some t) d2 n2
      pageSize fuel := by
  unfold get_sales_by_skus_and_tag
  by_cases hc : skus = [] ∨ tag = ""
  · rw [if_pos hc, if_pos hc]
  · rw [if_neg hc, if_neg hc]
    have hq : buildQueryString skus tag (some f) (some t) d1 n1 =
        buildQueryString skus tag (some f) (some t) d2 n2 := rfl
    rw [hq, runLoop_congr s1 s2 h _ pageSize fuel none []]

def witServerC8 : PageRequest → PageResponse :=
  fun _ => .ok ⟨[⟨[⟨some "A", 3⟩]⟩], ⟨false, none⟩⟩

def witServerC8b : PageRequest → PageResponse := fun r =>
  match r.cursor with
  | none => .ok ⟨[⟨[⟨some "A", 3⟩]⟩], ⟨false, none⟩⟩
  | some _ => .ok ⟨[⟨[⟨some "A", 3⟩]⟩], ⟨false, none⟩⟩

theorem claim_c8_witness :
    (∀ r, witServerC8 r = witServerC8b r) ∧
    get_sales_by_skus_and_tag witServerC8 ["A"] "t" (some "2025-01-01")
      (some "2025-02-01") none (fun _ => "x") 250 4 =
    get_sales_by_skus_and_tag witServerC8b ["A"] "t" (some "2025-01-01")
      (some "2025-02-01") (some 7) (fun _ => "y") 250 4 :=
  ⟨fun r => by cases hc : r.cursor <;> simp [witServerC8, witServerC8b, hc],
    claim_c8_idempotent_fetch witServerC8 witServerC8b
      (fun r => by
        cases hc : r.cursor <;> simp [witServerC8, witServerC8b, hc]) ["A"] "t"
      "2025-01-01" "2025-02-01" none (some 7) (fun _ => "x") (fun _ => "y")
      250 4⟩

/-! ## Key-uniqueness of the built maps, and per-store sums -/

theorem nodup_addLineItem (m : SalesMap) (li : LineItem)
    (h : (mkeys m).Nodup) : (mkeys (addLineItem m li)).Nodup := by
  unfold addLineItem
  cases li.sku with
  | none => exact h
  | some s =>
    by_cases hs : s = ""
    · simpa [hs] using h
    · simpa [hs] using nodup_mkeys_madd m s li.quantity h

theorem nodup_processOrder (m : SalesMap) (o : Order)
    (h : (mkeys m).Nodup) : (mkeys (processOrder m o)).Nodup := by
  unfold processOrder
  induction o.lineItems generalizing m with
  | nil => exact h
  | cons hd tl ih =>
    simp only [List.foldl_cons]
    exact ih (addLineItem m hd) (nodup_addLineItem m hd h)

theorem nodup_processPage (m : SalesMap) (p : Page)
    (h : (mkeys m).Nodup) : (mkeys (processPage m p)).Nodup := by
  unfold processPage
  induction p.orders generalizing m with
  | nil => exact h
  | cons hd tl ih =>
    simp only [List.foldl_cons]
    exact ih (processOrder m hd) (nodup_processOrder m hd h)

theorem nodup_runLoop_sales (server : PageRequest → PageResponse)
    (q : String) (ps : Nat) :
    ∀ fuel cursor acc, (mkeys acc).Nodup →
      (mkeys (runLoop server q ps fuel cursor acc).sales).Nodup := by
  intro fuel
  induction fuel with
  | zero => intro cursor acc h; simpa [runLoop] using h
  | succ n ih =>
    intro cursor acc h
    cases hsrv : server ⟨q, ps, truthyStr cursor⟩ with
    | err e => rw [runLoop_succ_err server q ps n cursor acc e hsrv]; exact h
    | ok page =>
      cases hnp : page.pageInfo.hasNextPage with
      | true =>
        rw [runLoop_succ_next server q ps n cursor acc page hsrv hnp]
        exact ih _ _ (nodup_processPage acc page h)
      | false =>
        rw [runLoop_succ_last server q ps n cursor acc page hsrv hnp]
        exact nodup_processPage acc page h

theorem nodup_get_sales (server : PageRequest → PageResponse)
    (skus : List String) (tag : String) (fromS toS : Option String)
    (days : Option Nat) (nowMinus : Nat → String) (ps fuel : Nat) :
    (mkeys (get_sales_by_skus_and_tag server skus tag fromS toS days nowMinus
      ps fuel).sales).Nodup := by
  unfold get_sales_by_skus_and_tag
  by_cases hc : skus = [] ∨ tag = ""
  · rw [if_pos hc]; simp [mkeys]
  · rw [if_neg hc]
    exact nodup_runLoop_sales server _ ps fuel none [] (by simp [mkeys])

theorem nodup_mergeEntries :
    ∀ (m acc : SalesMap), (mkeys acc).Nodup →
      (mkeys (mergeEntries acc m)).Nodup := by
  intro m
  induction m with
  | nil => intro acc h; simpa [mergeEntries] using h
  | cons hd tl ih =>
    intro acc h
    simp only [mergeEntries, List.foldl_cons] at *
    exact ih (madd acc hd.1 hd.2) (nodup_mkeys_madd acc hd.1 hd.2 h)

/-- The client's result map: each non-empty sku is sent to the total of
the matching line-item quantities over all consumed pages (and an early
return yields the empty map over no consumed pages). -/
theorem get_sales_sales (server : PageRequest → PageResponse)
    (skus : List String) (tag : String) (fromS toS : Option String)
    (days : Option Nat) (nowMinus : Nat → String) (ps fuel : Nat)
    (s : String) (hs : s ≠ "") :
    mget (get_sales_by_skus_and_tag server skus tag fromS toS days nowMinus
        ps fuel).sales s =
      ((okPages (get_sales_by_skus_and_tag server skus tag fromS toS days
        nowMinus ps fuel).steps).map (pageCount s)).sum := by
  unfold get_sales_by_skus_and_tag
  by_cases hc : skus = [] ∨ tag = ""
  · rw [if_pos hc]; simp [mget, okPages]
  · rw [if_neg hc]
    rw [runLoop_sales server _ ps s hs fuel none []]
    simp [mget]

theorem fetch_store_sales_foldl (server : PageRequest → PageResponse)
    (fuel : Nat) (tag : String) (fromS toS : Option String)
    (days : Option Nat) (nowMinus : Nat → String) (s : String) :
    ∀ (batches : List (List String)) (acc : SalesMap × List PageRequest),
      mget (batches.foldl
        (fun (acc : SalesMap × List PageRequest) batch =>
          let out := get_sales_by_skus_and_tag server batch tag fromS toS days
            nowMinus 250 fuel
          (mergeEntries acc.1 out.sales,
            acc.2 ++ out.steps.map (fun stp => stp.req))) acc).1 s =
      mget acc.1 s +
        (batches.map (fun b =>
          mget (get_sales_by_skus_and_tag server b tag fromS toS days nowMinus
            250 fuel).sales s)).sum := by
  intro batches
  induction batches with
  | nil => intro acc; simp
  | cons hd tl ih =>
    intro acc
    simp only [List.foldl_cons, List.map_cons, List.sum_cons]
    rw [ih]
    dsimp only
    rw [mget_mergeEntries, entrySum_eq_mget _ _
      (nodup_get_sales server hd tag fromS toS days nowMinus 250 fuel)]
    omega

theorem fetch_store_sales_sales (server : PageRequest → PageResponse)
    (fuel : Nat) (sku_batches : List (List String)) (tag : String)
    (fromS toS : Option String) (days : Option Nat) (nowMinus : Nat → String)
    (storeName : String) (s : String) :
    mget (fetch_store_sales server fuel sku_batches tag fromS toS days
        nowMinus storeName).1.sales s =
      (sku_batches.map (fun b =>
        mget (get_sales_by_skus_and_tag server b tag fromS toS days nowMinus
          250 fuel).sales s)).sum := by
  unfold fetch_store_sales
  have h := fetch_store_sales_foldl server fuel tag fromS toS days nowMinus s
    sku_batches ([], [])
  simpa [mget] using h

theorem fetch_store_sales_nodup (server : PageRequest → PageResponse)
    (fuel : Nat) (sku_batches : List (List String)) (tag : String)
    (fromS toS : Option String) (days : Option Nat) (nowMinus : Nat → String)
    (storeName : String) :
    (mkeys (fetch_store_sales server fuel sku_batches tag fromS toS days
      nowMinus storeName).1.sales).Nodup := by
  unfold fetch_store_sales
  have haux : ∀ (l : List (List String)) (acc : SalesMap × List PageRequest),
      (mkeys acc.1).Nodup →
      (mkeys (l.foldl
        (fun (acc : SalesMap × List PageRequest) batch =>
          let out := get_sales_by_skus_and_tag server batch tag fromS toS days
            nowMinus 250 fuel
          (mergeEntries acc.1 out.sales,
            acc.2 ++ out.steps.map (fun stp => stp.req))) acc).1).Nodup := by
    intro l
    induction l with
    | nil => intro acc h; exact h
    | cons hd tl ih =>
      intro acc h
      simp only [List.foldl_cons]
      exact ih _ (nodup_mergeEntries _ acc.1 h)
  exact haux sku_batches ([], []) (by simp [mkeys])

/-! ## Unfolding the fetch pipeline and the generator -/

def excIsOk : Except String SyncOutcome → Bool
  | .ok _ => true
  | .error _ => false

def excSales : Except String SyncOutcome → SalesMap
  | .ok o => o.sales_by_sku
  | .error _ => []

def excFailed : Except String SyncOutcome → List (String × String)
  | .ok o => o.stores_failed
  | .error _ => []

/-- A blank (post-strip) tag or an empty resolved store list fails the
fetch with the corresponding configuration error before any request. -/
theorem fetch_config_error
    (serverOf : StoreConfig → PageRequest → PageResponse)
    (fuelOf : StoreConfig → Nat)
    (sched : List StoreFetchResult → List StoreFetchResult)
    (products : List Product) (settings : Settings)
    (from_date to_date : Option String) (days : Option Nat)
    (nowMinus : Nat → String) (diffDays : String → String → Nat)
    (h : pyStrip (settings.sales_order_tag.getD "") = "" ∨
      buildStores settings = []) :
    fetch_sales_data_from_stores serverOf fuelOf sched products settings
      from_date to_date days nowMinus diffDays =
    (.error (if pyStrip (settings.sales_order_tag.getD "") = "" then
        "Sales Order Tag not configured in settings"
      else "No Shopify stores configured"), []) := by
  unfold fetch_sales_data_from_stores
  by_cases ht : pyStrip (settings.sales_order_tag.getD "") = ""
  · rw [if_pos ht, if_pos ht]
  · have hst : buildStores settings = [] := h.resolve_left ht
    rw [if_neg ht, if_neg ht, if_pos hst]

/-- The fetch on the happy path: non-blank tag, at least one store, at
least one SKU. -/
theorem fetch_ok_unfold
    (serverOf : StoreConfig → PageRequest → PageResponse)
    (fuelOf : StoreConfig → Nat)
    (sched : List StoreFetchResult → List StoreFetchResult)
    (products : List Product) (settings : Settings)
    (from_date to_date : Option String) (days : Option Nat)
    (nowMinus : Nat → String) (diffDays : String → String → Nat)
    (htag : pyStrip (settings.sales_order_tag.getD "") ≠ "")
    (hstores : buildStores settings ≠ [])
    (hskus : productSkus products ≠ []) :
    fetch_sales_data_from_stores serverOf fuelOf sched products settings
      from_date to_date days nowMinus diffDays =
    (let tag := pyStrip (settings.sales_order_tag.getD "")
     let dr := resolveDates settings from_date to_date days nowMinus diffDays
     let stores := buildStores settings
     let sku_batches := chunk50 (productSkus products)
     let fetched := stores.map (fun st =>
       fetch_store_sales (serverOf st) (fuelOf st) sku_batches tag
         (some dr.fromS) (some dr.toS) dr.effDays nowMinus st.name)
     let results := sched (fetched.map Prod.fst)
     let merged := mergeResults results
     (.ok ⟨merged.1, stores.length - merged.2.length, merged.2,
         dr.fromS, dr.toS, dr.infoDays, tag⟩,
       (fetched.map Prod.snd).flatten)) := by
  unfold fetch_sales_data_from_stores
  simp only [if_neg htag, if_neg hstores, if_neg hskus]

/-- The generator's trace when the fetch fails. -/
theorem generate_progress_error
    (serverOf : StoreConfig → PageRequest → PageResponse)
    (fuelOf : StoreConfig → Nat)
    (sched : List StoreFetchResult → List StoreFetchResult)
    (settings : Settings) (all_products : List Product)
    (product_ids : Option (List Nat))
    (nowMinus : Nat → String) (diffDays : String → String → Nat)
    (e : String) (reqs : List PageRequest)
    (h : fetch_sales_data_from_stores serverOf fuelOf sched
      (filterProducts all_products product_ids) settings none none
      (some (sanitizeDays settings.sales_sync_days)) nowMinus diffDays =
      (.error e, reqs)) :
    generate_progress serverOf fuelOf sched settings all_products product_ids
      nowMinus diffDays =
    ([.start (filterProducts all_products product_ids).length 0,
      .status "Fetching sales data from all stores...", .error e], reqs) := by
  simp only [generate_progress]
  rw [h]
  rfl

/-- The generator's trace on a successful fetch, in flattened form. -/
theorem generate_progress_ok
    (serverOf : StoreConfig → PageRequest → PageResponse)
    (fuelOf : StoreConfig → Nat)
    (sched : List StoreFetchResult → List StoreFetchResult)
    (settings : Settings) (all_products : List Product)
    (product_ids : Option (List Nat))
    (nowMinus : Nat → String) (diffDays : String → String → Nat)
    (res : SyncOutcome) (reqs : List PageRequest)
    (h : fetch_sales_data_from_stores serverOf fuelOf sched
      (filterProducts all_products product_ids) settings none none
      (some (sanitizeDays settings.sales_sync_days)) nowMinus diffDays =
      (.ok res, reqs)) :
    generate_progress serverOf fuelOf sched settings all_products product_ids
      nowMinus diffDays =
    (let prods := filterProducts all_products product_ids
     let st := processProducts prods.length res.sales_by_sku prods 0
       initProdState
     ([.start prods.length 0,
       .status "Fetching sales data from all stores...",
       .status s!"Fetched sales from {res.stores_processed} store(s)"] ++
      res.stores_failed.map (fun f => .status s!"failed {f.1}: {f.2}") ++
      st.events ++
      (if st.updates = [] then []
       else [.dbWrite st.updates,
         .status s!"Updated {st.updates.length} product(s) in database"]) ++
      [.complete st.synced st.notFound prods.length res.stores_processed
        res.stores_failed.length], reqs)) := by
  simp only [generate_progress]
  rw [h]
  by_cases hu : (processProducts (filterProducts all_products
      product_ids).length res.sales_by_sku
      (filterProducts all_products product_ids) 0 initProdState).updates = []
  · simp only [hu, ite_true, eq_self_iff_true]
    simp
  · simp only [if_neg hu]
    simp

theorem countDbWrites_append (a b : List Ev) :
    countDbWrites (a ++ b) = countDbWrites a + countDbWrites b := by
  simp [countDbWrites, List.filter_append]

theorem countDbWrites_status_map (l : List (String × String))
    (g : String × String → String) :
    countDbWrites (l.map (fun f => Ev.status (g f))) = 0 := by
  induction l with
  | nil => rfl
  | cons hd tl ih =>
    simp only [List.map_cons, countDbWrites, List.filter_cons] at *
    simpa [isDbWriteEv] using ih

theorem writesAfterProgress_append (a b : List Ev)
    (ha : ∀ e ∈ a, isDbWriteEv e = false) :
    writesAfterProgress (a ++ b) = writesAfterProgress b := by
  induction a with
  | nil => rfl
  | cons hd tl ih =>
    simp only [List.cons_append, writesAfterProgress, List.append_eq]
    rw [ha hd (List.mem_cons_self hd tl), ih
      (fun e he => ha e (List.mem_cons_of_mem hd he))]
    simp

theorem filter_isDbWriteEv_nil_of_count (l : List Ev)
    (h : (l.filter isDbWriteEv).length = 0) :
    ∀ e ∈ l, isDbWriteEv e = false := by
  intro e he
  have hnil : l.filter isDbWriteEv = [] := List.length_eq_zero.mp h
  cases hdb : isDbWriteEv e with
  | false => rfl
  | true =>
    have : e ∈ l.filter isDbWriteEv := List.mem_filter.mpr ⟨he, hdb⟩
    rw [hnil] at this
    exact absurd this (List.not_mem_nil e)

/-! ## Claims about configuration errors, the single bulk write, and
partial-failure behaviour -/

/-- Claim C4: with a blank sales-order tag or no resolvable store, the
run fails before any network I/O: the stream is exactly the two opening
events followed by a single terminal error event naming the
configuration problem, no page request is issued, and no database write
happens. -/
theorem claim_c4_config_error
    (serverOf : StoreConfig → PageRequest → PageResponse)
    (fuelOf : StoreConfig → Nat)
    (sched : List StoreFetchResult → List StoreFetchResult)
    (settings : Settings) (all_products : List Product)
    (product_ids : Option (List Nat))
    (nowMinus : Nat → String) (diffDays : String → String → Nat)
    (h : pyStrip (settings.sales_order_tag.getD "") = "" ∨
      buildStores settings = []) :
    (generate_progress serverOf fuelOf sched settings all_products product_ids
      nowMinus diffDays).1 =
      [.start (filterProducts all_products product_ids).length 0,
       .status "Fetching sales data from all stores...",
       .error (if pyStrip (settings.sales_order_tag.getD "") = "" then
         "Sales Order Tag not configured in settings"
         else "No Shopify stores configured")] ∧
    (generate_progress serverOf fuelOf sched settings all_products product_ids
      nowMinus diffDays).2 = [] ∧
    countDbWrites (generate_progress serverOf fuelOf sched settings
      all_products product_ids nowMinus diffDays).1 = 0 ∧
    ((generate_progress serverOf fuelOf sched settings all_products
      product_ids nowMinus diffDays).1.filter isErrorEv).length = 1 := by
  have hf := fetch_config_error serverOf fuelOf sched
    (filterProducts all_products product_ids) settings none none
    (some (sanitizeDays settings.sales_sync_days)) nowMinus diffDays h
  have hg := generate_progress_error serverOf fuelOf sched settings
    all_products product_ids nowMinus diffDays _ _ hf
  rw [hg]
  refine ⟨rfl, rfl, ?_, ?_⟩
  · simp [countDbWrites, List.filter_cons, isDbWriteEv]
  · simp [List.filter_cons, isErrorEv]

def cexSettingsC4 : Settings :=
  ⟨none, none, some "main.example.com", some "tok",
    fun _ => none, fun _ => none⟩

theorem claim_c4_witness :
    (pyStrip (cexSettingsC4.sales_order_tag.getD "") = "" ∨
      buildStores cexSettingsC4 = []) ∧
    ((generate_progress (fun _ _ => .err "x") (fun _ => 1) id cexSettingsC4
      [⟨1, "P", some "A", none⟩] none (fun _ => "n") (fun _ _ => 0)).1 =
      [.start (filterProducts [⟨1, "P", some "A", none⟩] none).length 0,
       .status "Fetching sales data from all stores...",
       .error (if pyStrip (cexSettingsC4.sales_order_tag.getD "") = "" then
         "Sales Order Tag not configured in settings"
         else "No Shopify stores configured")] ∧
    (generate_progress (fun _ _ => .err "x") (fun _ => 1) id cexSettingsC4
      [⟨1, "P", some "A", none⟩] none (fun _ => "n") (fun _ _ => 0)).2 = [] ∧
    countDbWrites (generate_progress (fun _ _ => .err "x") (fun _ => 1) id
      cexSettingsC4 [⟨1, "P", some "A", none⟩] none (fun _ => "n")
      (fun _ _ => 0)).1 = 0 ∧
    ((generate_progress (fun _ _ => .err "x") (fun _ => 1) id cexSettingsC4
      [⟨1, "P", some "A", none⟩] none (fun _ => "n")
      (fun _ _ => 0)).1.filter isErrorEv).length = 1) :=
  ⟨Or.inl (by decide),
    claim_c4_config_error (fun _ _ => .err "x") (fun _ => 1) id cexSettingsC4
      [⟨1, "P", some "A", none⟩] none (fun _ => "n") (fun _ _ => 0)
      (Or.inl (by decide))⟩

/-- Claim C9 (amended): on a successful fetch the generator performs the
database write at most once — exactly once when at least one product
yields an update entry and not at all when none does — the write carries
precisely the update list computed by the per-product loop from the
final merged aggregate (one entry per truthy-barcode product, rounded
per `updateOf`), and no per-product progress event follows any write. -/
theorem claim_c9_single_bulk_write
    (serverOf : StoreConfig → PageRequest → PageResponse)
    (fuelOf : StoreConfig → Nat)
    (sched : List StoreFetchResult → List StoreFetchResult)
    (settings : Settings) (all_products : List Product)
    (product_ids : Option (List Nat))
    (nowMinus : Nat → String) (diffDays : String → String → Nat)
    (res : SyncOutcome) (reqs : List PageRequest)
    (h : fetch_sales_data_from_stores serverOf fuelOf sched
      (filterProducts all_products product_ids) settings none none
      (some (sanitizeDays settings.sales_sync_days)) nowMinus diffDays =
      (.ok res, reqs)) :
    countDbWrites (generate_progress serverOf fuelOf sched settings
        all_products product_ids nowMinus diffDays).1 =
      (if (processProducts (filterProducts all_products product_ids).length
          res.sales_by_sku (filterProducts all_products product_ids) 0
          initProdState).updates = [] then 0 else 1) ∧
    (∀ u, Ev.dbWrite u ∈ (generate_progress serverOf fuelOf sched settings
        all_products product_ids nowMinus diffDays).1 →
      u = (processProducts (filterProducts all_products product_ids).length
        res.sales_by_sku (filterProducts all_products product_ids) 0
        initProdState).updates) ∧
    (processProducts (filterProducts all_products product_ids).length
        res.sales_by_sku (filterProducts all_products product_ids) 0
        initProdState).updates =
      (filterProducts all_products product_ids).filterMap
        (updateOf res.sales_by_sku) ∧
    writesAfterProgress (generate_progress serverOf fuelOf sched settings
      all_products product_ids nowMinus diffDays).1 = true := by
  have hg := generate_progress_ok serverOf fuelOf sched settings all_products
    product_ids nowMinus diffDays res reqs h
  rw [hg]
  dsimp only
  set prods := filterProducts all_products product_ids with hprods
  set st := processProducts prods.length res.sales_by_sku prods 0 initProdState
    with hst
  have hevents0 : (st.events.filter isDbWriteEv).length = 0 := by
    obtain ⟨_, _, h3⟩ := processProducts_events_props prods.length
      res.sales_by_sku prods 0 initProdState
    rw [hst]
    simpa [initProdState] using h3
  have hnodb : ∀ e ∈ st.events, isDbWriteEv e = false :=
    filter_isDbWriteEv_nil_of_count st.events hevents0
  refine ⟨?_, ?_, ?_, ?_⟩
  · rw [countDbWrites_append, countDbWrites_append, countDbWrites_append,
      countDbWrites_append]
    have h1 : countDbWrites [Ev.start prods.length 0,
        Ev.status "Fetching sales data from all stores...",
        Ev.status s!"Fetched sales from {res.stores_processed} store(s)"] = 0 := rfl
    have h2 := countDbWrites_status_map res.stores_failed
      (fun f => s!"failed {f.1}: {f.2}")
    have h3 : countDbWrites st.events = 0 := hevents0
    have h5 : countDbWrites [Ev.complete st.synced st.notFound prods.length
        res.stores_processed res.stores_failed.length] = 0 := rfl
    rw [h1, h2, h3, h5]
    by_cases hu : st.updates = []
    · simp [hu, countDbWrites]
    · simp [hu, countDbWrites, List.filter_cons, isDbWriteEv]
  · intro u hu
    simp only [List.mem_append] at hu
    rcases hu with ((((hu | hu) | hu) | hu) | hu)
    · simp at hu
    · obtain ⟨f, _, hf⟩ := List.mem_map.mp hu
      exact absurd hf.symm (by simp)
    · have := hnodb _ hu
      simp [isDbWriteEv] at this
    · by_cases hup : st.updates = []
      · simp [hup] at hu
      · simp only [if_neg hup] at hu
        rcases List.mem_cons.mp hu with hu | hu
        · exact (Ev.dbWrite.injEq _ _).mp hu.symm |>.symm ▸ rfl
        · simp at hu
    · simp at hu
  · rw [hst]
    rw [processProducts_updates prods.length res.sales_by_sku prods 0
      initProdState]
    simp [initProdState]
  · rw [List.append_assoc]
    rw [writesAfterProgress_append _ _ ?side]
    case side =>
      intro e he
      simp only [List.mem_append] at he
      rcases he with (he | he) | he
      · simp at he
        rcases he with he | he | he <;> simp [he, isDbWriteEv]
      · obtain ⟨f, _, hf⟩ := List.mem_map.mp he
        simp [← hf, isDbWriteEv]
      · exact hnodb _ he
    by_cases hu : st.updates = []
    · simp [hu, writesAfterProgress, isDbWriteEv]
    · simp [hu, writesAfterProgress, isDbWriteEv, isProgressEv]

def witResC9 : SyncOutcome := ⟨[("A", 3)], 1, [], "n", "n", 30, "t"⟩

def witSettingsC9 : Settings :=
  ⟨some "t", some 30, some "u", some "tok", fun _ => none, fun _ => none⟩

def witServerC9 : StoreConfig → PageRequest → PageResponse :=
  fun _ _ => .ok ⟨[⟨[⟨some "A", 3⟩]⟩], ⟨false, none⟩⟩

def witProductsC9 : List Product := [⟨1, "PA", some "A", some 2⟩]

def witReqsC9 : List PageRequest :=
  [⟨buildQueryString ["A"] "t" (some "n") (some "n") (some 30)
    (fun _ => "n"), 250, none⟩]

theorem claim_c9_witness :
    (fetch_sales_data_from_stores witServerC9 (fun _ => 2) id
      (filterProducts witProductsC9 none) witSettingsC9 none none
      (some (sanitizeDays witSettingsC9.sales_sync_days)) (fun _ => "n")
      (fun _ _ => 0) = (.ok witResC9, witReqsC9)) ∧
    (countDbWrites (generate_progress witServerC9 (fun _ => 2) id
        witSettingsC9 witProductsC9 none (fun _ => "n") (fun _ _ => 0)).1 =
      (if (processProducts (filterProducts witProductsC9 none).length
          witResC9.sales_by_sku (filterProducts witProductsC9 none) 0
          initProdState).updates = [] then 0 else 1) ∧
    (∀ u, Ev.dbWrite u ∈ (generate_progress witServerC9 (fun _ => 2) id
        witSettingsC9 witProductsC9 none (fun _ => "n") (fun _ _ => 0)).1 →
      u = (processProducts (filterProducts witProductsC9 none).length
        witResC9.sales_by_sku (filterProducts witProductsC9 none) 0
        initProdState).updates) ∧
    (processProducts (filterProducts witProductsC9 none).length
        witResC9.sales_by_sku (filterProducts witProductsC9 none) 0
        initProdState).updates =
      (filterProducts witProductsC9 none).filterMap
        (updateOf witResC9.sales_by_sku) ∧
    writesAfterProgress (generate_progress witServerC9 (fun _ => 2) id
      witSettingsC9 witProductsC9 none (fun _ => "n") (fun _ _ => 0)).1 =
      true) :=
  ⟨rfl,
    claim_c9_single_bulk_write witServerC9 (fun _ => 2) id witSettingsC9
      witProductsC9 none (fun _ => "n") (fun _ _ => 0) witResC9 witReqsC9 rfl⟩

/-- Claim C9, as stated, is false on runs that produce no update entry:
a successful sync over an empty product list performs zero database
writes, not exactly one. -/
theorem claim_c9_counterexample :
    countDbWrites (generate_progress witServerC9 (fun _ => 2) id
      witSettingsC9 [] none (fun _ => "n") (fun _ _ => 0)).1 = 0 ∧
    ((generate_progress witServerC9 (fun _ => 2) id witSettingsC9 [] none
      (fun _ => "n") (fun _ _ => 0)).1.filter isErrorEv).length = 0 := by
  constructor
  · decide
  · decide

/-- Claim C1 (amended): a page-level failure aborts that store's
pagination (an error response is always the last step of the loop) but
the partial per-page sums gathered before the failure are returned as a
*successful* per-store result and merged into the final aggregate:
every store worker reports success, the run's `stores_failed` is always
empty, and the merged count of every non-empty sku is the sum over all
stores of the per-store partial sums (each itself the sum over the pages
that store consumed before stopping).  Other stores' contributions are
unaffected, entering the same sum independently. -/
theorem claim_c1_partial_failure
    (serverOf : StoreConfig → PageRequest → PageResponse)
    (fuelOf : StoreConfig → Nat)
    (sched : List StoreFetchResult → List StoreFetchResult)
    (hsched : ∀ l, (sched l).Perm l)
    (products : List Product) (settings : Settings)
    (from_date to_date : Option String) (days : Option Nat)
    (nowMinus : Nat → String) (diffDays : String → String → Nat)
    (htag : pyStrip (settings.sales_order_tag.getD "") ≠ "")
    (hstores : buildStores settings ≠ [])
    (hskus : productSkus products ≠ [])
    (s : String) (hs : s ≠ "") :
    let tg := pyStrip (settings.sales_order_tag.getD "")
    let dr := resolveDates settings from_date to_date days nowMinus diffDays
    let batches := chunk50 (productSkus products)
    let F := fun st : StoreConfig =>
      (fetch_store_sales (serverOf st) (fuelOf st) batches tg (some dr.fromS)
        (some dr.toS) dr.effDays nowMinus st.name).1
    (∀ (server : PageRequest → PageResponse) (q : String) (ps fuel : Nat)
      (cursor : Option String) (acc : SalesMap) (stp : Step),
      stp ∈ (runLoop server q ps fuel cursor acc).steps.dropLast →
      ∃ p, stp.resp = .ok p) ∧
    (∀ st : StoreConfig, (F st).success = true ∧
      mget (F st).sales s = (batches.map (fun b =>
        ((okPages (get_sales_by_skus_and_tag (serverOf st) b tg
          (some dr.fromS) (some dr.toS) dr.effDays nowMinus 250
          (fuelOf st)).steps).map (pageCount s)).sum)).sum) ∧
    excIsOk (fetch_sales_data_from_stores serverOf fuelOf sched products
      settings from_date to_date days nowMinus diffDays).1 = true ∧
    excFailed (fetch_sales_data_from_stores serverOf fuelOf sched products
      settings from_date to_date days nowMinus diffDays).1 = [] ∧
    mget (excSales (fetch_sales_data_from_stores serverOf fuelOf sched
        products settings from_date to_date days nowMinus diffDays).1) s =
      ((buildStores settings).map (fun st => mget (F st).sales s)).sum := by
  intro tg dr batches F
  have hmain := fetch_ok_unfold serverOf fuelOf sched products settings
    from_date to_date days nowMinus diffDays htag hstores hskus
  refine ⟨?_, ?_, ?_, ?_, ?_⟩
  · intro server q ps fuel cursor acc stp h
    exact runLoop_err_last server q ps fuel cursor acc stp h
  · intro st
    refine ⟨rfl, ?_⟩
    have h1 := fetch_store_sales_sales (serverOf st) (fuelOf st) batches tg
      (some dr.fromS) (some dr.toS) dr.effDays nowMinus st.name s
    have hfun : (fun b => mget (get_sales_by_skus_and_tag (serverOf st) b tg
        (some dr.fromS) (some dr.toS) dr.effDays nowMinus 250
        (fuelOf st)).sales s) = (fun b =>
        ((okPages (get_sales_by_skus_and_tag (serverOf st) b tg
          (some dr.fromS) (some dr.toS) dr.effDays nowMinus 250
          (fuelOf st)).steps).map (pageCount s)).sum) :=
      funext fun b => get_sales_sales (serverOf st) b tg (some dr.fromS)
        (some dr.toS) dr.effDays nowMinus 250 (fuelOf st) s hs
    rw [← hfun]
    exact h1
  · rw [hmain]; rfl
  · rw [hmain]
    dsimp only [excFailed]
    rw [mergeResults_failed]
    refine List.filterMap_eq_nil_iff.mpr ?_
    intro r hr
    have hr2 : r ∈ ((buildStores settings).map (fun st =>
        fetch_store_sales (serverOf st) (fuelOf st) batches tg
          (some dr.fromS) (some dr.toS) dr.effDays nowMinus st.name)).map
          Prod.fst := (hsched _).mem_iff.mp hr
    rw [List.map_map] at hr2
    obtain ⟨st, _, hst⟩ := List.mem_map.mp hr2
    rw [← hst]
    rfl
  · rw [hmain]
    dsimp only [excSales]
    rw [mergeResults_sales]
    have hperm := (hsched (((buildStores settings).map (fun st =>
      fetch_store_sales (serverOf st) (fuelOf st) batches tg
        (some dr.fromS) (some dr.toS) dr.effDays nowMinus st.name)).map
        Prod.fst)).map
      (fun r => if r.success then entrySum r.sales s else 0)
    rw [hperm.sum_eq, List.map_map, List.map_map]
    have hfun2 : (((fun r : StoreFetchResult =>
        if r.success = true then entrySum r.sales s else 0) ∘ Prod.fst) ∘
        fun st : StoreConfig =>
          fetch_store_sales (serverOf st) (fuelOf st) batches tg
            (some dr.fromS) (some dr.toS) dr.effDays nowMinus st.name) =
        fun st : StoreConfig => mget (F st).sales s := by
      funext st
      show (if (F st).success = true then entrySum (F st).sales s else 0) =
        mget (F st).sales s
      have hsucc : (F st).success = true := rfl
      rw [if_pos hsucc]
      exact entrySum_eq_mget _ _ (fetch_store_sales_nodup (serverOf st)
        (fuelOf st) batches tg (some dr.fromS) (some dr.toS) dr.effDays
        nowMinus st.name)
    rw [hfun2]

def cexSettingsC1 : Settings :=
  ⟨some "warehouse", some 30, some "main.example.com", some "tok1",
    (fun i => if i = 2 then some "u2" else if i = 3 then some "u3" else none),
    (fun i => if i = 2 then some "t2" else if i = 3 then some "t3" else none)⟩

def cexProductsC1 : List Product := [⟨1, "PA", some "A", some 1⟩]

/-- Three stores: the main store returns one page with quantity 3 for
sku A; store 2 returns one page with quantity 5 and then fails on its
second page; store 3 returns one page with quantity 4. -/
def cexServerOfC1 : StoreConfig → PageRequest → PageResponse := fun st r =>
  if st.url = "main.example.com" then
    .ok ⟨[⟨[⟨some "A", 3⟩]⟩], ⟨false, none⟩⟩
  else if st.url = "u2" then
    match r.cursor with
    | none => .ok ⟨[⟨[⟨some "A", 5⟩]⟩], ⟨true, some "c1"⟩⟩
    | some _ => .err "connection reset by store 2"
  else .ok ⟨[⟨[⟨some "A", 4⟩]⟩], ⟨false, none⟩⟩

/-- Claim C1, as stated, is false: with store 2 failing after one valid
page of 5 units for sku A, the final aggregate holds 3 + 5 + 4 = 12 (the
partial page of the failed store IS merged: the client swallows the
error and returns the partial map as an ordinary result) and
`stores_failed` is empty rather than naming store 2. -/
theorem claim_c1_counterexample :
    excFailed (fetch_sales_data_from_stores cexServerOfC1 (fun _ => 5) id
      cexProductsC1 cexSettingsC1 none none (some 30) (fun _ => "n")
      (fun _ _ => 0)).1 = [] ∧
    mget (excSales (fetch_sales_data_from_stores cexServerOfC1 (fun _ => 5) id
      cexProductsC1 cexSettingsC1 none none (some 30) (fun _ => "n")
      (fun _ _ => 0)).1) "A" = 12 ∧
    ¬ (mget (excSales (fetch_sales_data_from_stores cexServerOfC1
        (fun _ => 5) id cexProductsC1 cexSettingsC1 none none (some 30)
        (fun _ => "n") (fun _ _ => 0)).1) "A" = 3 + 4 ∧
      (excFailed (fetch_sales_data_from_stores cexServerOfC1 (fun _ => 5) id
        cexProductsC1 cexSettingsC1 none none (some 30) (fun _ => "n")
        (fun _ _ => 0)).1).length = 1) := by
  refine ⟨?_, ?_, ?_⟩
  · decide
  · decide
  · decide

theorem claim_c1_witness :
    (pyStrip (cexSettingsC1.sales_order_tag.getD "") ≠ "" ∧
      buildStores cexSettingsC1 ≠ [] ∧ productSkus cexProductsC1 ≠ [] ∧
      ("A" : String) ≠ "") ∧
    (let tg := pyStrip (cexSettingsC1.sales_order_tag.getD "")
     let dr := resolveDates cexSettingsC1 none none (some 30) (fun _ => "n")
       (fun _ _ => 0)
     let batches := chunk50 (productSkus cexProductsC1)
     let F := fun st : StoreConfig =>
       (fetch_store_sales (cexServerOfC1 st) 5 batches tg (some dr.fromS)
         (some dr.toS) dr.effDays (fun _ => "n") st.name).1
     (∀ (server : PageRequest → PageResponse) (q : String) (ps fuel : Nat)
       (cursor : Option String) (acc : SalesMap) (stp : Step),
       stp ∈ (runLoop server q ps fuel cursor acc).steps.dropLast →
       ∃ p, stp.resp = .ok p) ∧
     (∀ st : StoreConfig, (F st).success = true ∧
       mget (F st).sales "A" = (batches.map (fun b =>
         ((okPages (get_sales_by_skus_and_tag (cexServerOfC1 st) b tg
           (some dr.fromS) (some dr.toS) dr.effDays (fun _ => "n") 250
           5).steps).map (pageCount "A")).sum)).sum) ∧
     excIsOk (fetch_sales_data_from_stores cexServerOfC1 (fun _ => 5) id
       cexProductsC1 cexSettingsC1 none none (some 30) (fun _ => "n")
       (fun _ _ => 0)).1 = true ∧
     excFailed (fetch_sales_data_from_stores cexServerOfC1 (fun _ => 5) id
       cexProductsC1 cexSettingsC1 none none (some 30) (fun _ => "n")
       (fun _ _ => 0)).1 = [] ∧
     mget (excSales (fetch_sales_data_from_stores cexServerOfC1 (fun _ => 5)
         id cexProductsC1 cexSettingsC1 none none (some 30) (fun _ => "n")
         (fun _ _ => 0)).1) "A" =
       ((buildStores cexSettingsC1).map (fun st =>
         mget (F st).sales "A")).sum) :=
  ⟨⟨by decide, by decide, by decide, by decide⟩,
    claim_c1_partial_failure cexServerOfC1 (fun _ => 5) id
      (fun l => List.Perm.refl l) cexProductsC1 cexSettingsC1 none none
      (some 30) (fun _ => "n") (fun _ _ => 0) (by decide) (by decide)
      (by decide) "A" (by decide)⟩
